import Mathlib

/-!
Verification development for the DevSentinel incident-lifecycle orchestrator.

This file shallowly embeds the core of `devsentinel/services`:
the data model (`models.py`, `database.py`), the orchestrator
(`incident_handler.py`: `process_incident`, `_attempt_auto_repair`,
`get_incident`, `list_incidents` and the private repository helpers),
the repair executor (`cline_runner.py`), the workflow trigger client
(`kestra_client.py`) and the manual-repair API route (`api.py`:
`trigger_repair`).

External collaborator behaviour (Gemini, Kestra, the Cline subprocess,
and whether a repository call raises) is supplied through explicit
oracle records; the database is a list of records together with a
counter for generated ids, a logical clock for timestamps, and a ghost
trace recording every persisted status change `(old, new)` so that
state-machine claims can be stated.  Python exceptions are modelled as
`Except String`; an expression that Python would catch is matched on
where the corresponding `try` block sits in the source.
-/

/-- `IncidentSeverity` from `models.py`. -/
inductive IncidentSeverity
  | low
  | medium
  | high
  | critical
deriving DecidableEq, Repr

/-- `IncidentStatus` from `models.py`. -/
inductive IncidentStatus
  | pending
  | analyzing
  | repairing
  | resolved
  | failed
deriving DecidableEq, Repr

/-- `IncidentModel` from `database.py` (ids and timestamps are modelled as
naturals: ids are drawn from the database counter, timestamps from its
logical clock; the JSON `metadata` column is a string-keyed association
list with string values). -/
structure IncidentModel where
  id : Nat
  title : String
  description : String
  severity : IncidentSeverity
  status : IncidentStatus
  source : String
  resolution : Option String
  kestra_execution_id : Option String
  incident_metadata : Option (List (String × String))
  created_at : Nat
  updated_at : Nat
deriving DecidableEq, Repr

/-- `IncidentRequest` from `models.py`. -/
structure IncidentRequest where
  title : String
  description : String
  severity : IncidentSeverity
  source : String
  metadata : Option (List (String × String))
deriving DecidableEq, Repr

/-- `IncidentResponse` from `models.py`. -/
structure IncidentResponse where
  id : Nat
  title : String
  description : String
  severity : IncidentSeverity
  status : IncidentStatus
  source : String
  created_at : Nat
  updated_at : Nat
  resolution : Option String
  kestra_execution_id : Option String
  metadata : Option (List (String × String))
deriving DecidableEq, Repr

/-- The persistent store of `database.py` plus a ghost `trace` of
persisted status transitions `(old, new)` (recorded only when the
status actually changes), used to state state-machine claims. -/
structure Database where
  incidents : List IncidentModel
  nextId : Nat
  now : Nat
  trace : List (IncidentStatus × IncidentStatus)
deriving DecidableEq, Repr

/-- All stored ids were produced by the id counter. -/
def Database.WF (db : Database) : Prop :=
  ∀ i ∈ db.incidents, i.id < db.nextId

instance (db : Database) : Decidable db.WF :=
  inferInstanceAs (Decidable (∀ i ∈ db.incidents, i.id < db.nextId))

/-- Python dict assignment `m[k] = v` on the metadata mapping. -/
def metaSet : List (String × String) → String → String → List (String × String)
  | [], k, v => [(k, v)]
  | (k1, v1) :: rest, k, v =>
      if k1 = k then (k, v) :: rest else (k1, v1) :: metaSet rest k v

/-- `IncidentHandler._to_response` from `incident_handler.py`. -/
def toResponse (incident : IncidentModel) : IncidentResponse :=
  { id := incident.id
    title := incident.title
    description := incident.description
    severity := incident.severity
    status := incident.status
    source := incident.source
    created_at := incident.created_at
    updated_at := incident.updated_at
    resolution := incident.resolution
    kestra_execution_id := incident.kestra_execution_id
    metadata := incident.incident_metadata }

/-- The `IncidentModel(...)` constructor call inside
`IncidentHandler._create_incident_record`: a fresh PENDING record with
server-generated id and timestamps. -/
def freshIncident (db : Database) (incident : IncidentRequest) : IncidentModel :=
  { id := db.nextId
    title := incident.title
    description := incident.description
    severity := incident.severity
    status := IncidentStatus.pending
    source := incident.source
    resolution := none
    kestra_execution_id := none
    incident_metadata := incident.metadata
    created_at := db.now
    updated_at := db.now }

/-- `IncidentHandler._create_incident_record`: insert a fresh PENDING
record and return it.  `exn = some e` models the repository raising `e`
(the transaction commits nothing, so the store is unchanged). -/
def createIncidentRecord (db : Database) (incident : IncidentRequest) (exn : Option String) :
    Database × Except String IncidentModel :=
  match exn with
  | some e => (db, Except.error e)
  | none =>
      let inc := freshIncident db incident
      ({ db with
          incidents := db.incidents ++ [inc]
          nextId := db.nextId + 1
          now := db.now + 1 },
        Except.ok inc)

/-- The session query `session.query(IncidentModel).filter(IncidentModel.id == incident_id).first()`
used by `get_incident`, `_update_incident_status` and `trigger_repair`. -/
def getIncident (db : Database) (incidentId : Nat) : Option IncidentModel :=
  db.incidents.find? (fun i => i.id == incidentId)

/-- Status of the stored record with the given id, if any. -/
def statusOf (db : Database) (incidentId : Nat) : Option IncidentStatus :=
  (getIncident db incidentId).map IncidentModel.status

/-- `IncidentHandler._update_incident_status`: look the record up,
set its status and `updated_at`, commit, and return the refreshed
record (`none` when no record has that id — Python returns `None`).
`exn = some e` models the session raising `e`. -/
def updateIncidentStatus (db : Database) (incidentId : Nat) (status : IncidentStatus)
    (exn : Option String) : Database × Except String (Option IncidentModel) :=
  match exn with
  | some e => (db, Except.error e)
  | none =>
      match db.incidents.find? (fun i => i.id == incidentId) with
      | none => (db, Except.ok none)
      | some inc =>
          let inc1 := { inc with status := status, updated_at := db.now }
          ({ db with
              incidents := db.incidents.map (fun i => if i.id == incidentId then inc1 else i)
              now := db.now + 1
              trace :=
                if inc.status = status then db.trace
                else db.trace ++ [(inc.status, status)] },
            Except.ok (some inc1))

/-- `IncidentHandler._save_incident`: `session.merge` then commit —
an upsert on the primary key (`updated_at` refreshed by the ORM
`onupdate` hook).  `exn = some e` models the session raising `e`. -/
def saveIncident (db : Database) (incident : IncidentModel) (exn : Option String) :
    Database × Except String Unit :=
  match exn with
  | some e => (db, Except.error e)
  | none =>
      match db.incidents.find? (fun i => i.id == incident.id) with
      | some old =>
          let inc1 := { incident with updated_at := db.now }
          ({ db with
              incidents := db.incidents.map (fun i => if i.id == incident.id then inc1 else i)
              now := db.now + 1
              trace :=
                if old.status = incident.status then db.trace
                else db.trace ++ [(old.status, incident.status)] },
            Except.ok ())
      | none =>
          ({ db with
              incidents := db.incidents ++ [{ incident with updated_at := db.now }]
              now := db.now + 1 },
            Except.ok ())

/-- Result dictionary returned by `ClineRunner.execute_repair`
(`{"success": ..., "resolution": ..., "error": ...}` — absent keys are
`none`; `_attempt_auto_repair` reads all three with `.get`). -/
structure RepairResult where
  success : Bool
  resolution : Option String
  error : Option String
deriving DecidableEq, Repr

instance {ε α : Type} [DecidableEq ε] [DecidableEq α] : DecidableEq (Except ε α) := fun x y =>
  match x, y with
  | Except.error a, Except.error b =>
      if h : a = b then isTrue (by rw [h]) else isFalse (by intro hc; cases hc; exact h rfl)
  | Except.error _, Except.ok _ => isFalse (by intro hc; cases hc)
  | Except.ok _, Except.error _ => isFalse (by intro hc; cases hc)
  | Except.ok a, Except.ok b =>
      if h : a = b then isTrue (by rw [h]) else isFalse (by intro hc; cases hc; exact h rfl)

/-- Collaborator outcomes consumed by `_attempt_auto_repair`:
whether each repository call raises, the Gemini
`suggest_resolution_steps` outcome, and the `execute_repair` outcome. -/
structure RepairOracle where
  updateRepairingExn : Option String
  suggestResult : Except String (Option String)
  saveSuggestExn : Option String
  execResult : Except String RepairResult
  saveFinalExn : Option String
deriving DecidableEq, Repr

/-- The `try` block around `gemini_client.suggest_resolution_steps`
inside `_attempt_auto_repair`: on a truthy result, merge it into
`metadata["resolution_suggestions"]` on the in-memory object and save
(a failing save is caught by the same `except` and the pipeline
continues with the mutated object); on any error proceed with no
suggestions.  Returns the store, the threaded object, and the local
`resolution_suggestions` variable. -/
def suggestStep (db : Database) (incident : IncidentModel)
    (suggest : Except String (Option String)) (saveExn : Option String) :
    Database × IncidentModel × Option String :=
  match suggest with
  | Except.error _ => (db, incident, none)
  | Except.ok none => (db, incident, none)
  | Except.ok (some s) =>
      if s = "" then (db, incident, some s)
      else
        let inc1 := { incident with
          incident_metadata :=
            some (metaSet (incident.incident_metadata.getD []) "resolution_suggestions" s) }
        ((saveIncident db inc1 saveExn).1, inc1, some s)

/-- `IncidentHandler._attempt_auto_repair`: move to REPAIRING, get
best-effort suggestions, call the executor, and persist
RESOLVED/FAILED according to the reported `success` flag.  Every
exception inside the body is caught by the enclosing `except` and only
logged, so the function always returns normally (hence the plain
`Database` result type). -/
def attemptAutoRepair (db : Database) (incident : IncidentModel) (o : RepairOracle) : Database :=
  match updateIncidentStatus db incident.id IncidentStatus.repairing o.updateRepairingExn with
  | (db1, Except.error _) => db1
  | (db1, Except.ok none) => db1
  | (db1, Except.ok (some inc1)) =>
      match suggestStep db1 inc1 o.suggestResult o.saveSuggestExn with
      | (db2, inc2, _) =>
          match o.execResult with
          | Except.error _ => db2
          | Except.ok repairResult =>
              let inc3 :=
                if repairResult.success then
                  { inc2 with
                      status := IncidentStatus.resolved
                      resolution :=
                        some (repairResult.resolution.getD "Auto-repaired successfully") }
                else
                  { inc2 with
                      status := IncidentStatus.failed
                      resolution :=
                        some ("Auto-repair failed: " ++ repairResult.error.getD "None") }
              (saveIncident db2 inc3 o.saveFinalExn).1

/-- Collaborator outcomes consumed by `process_incident`: whether each
repository call raises, the Gemini analysis outcome, the Kestra trigger
outcome (`Except.ok execId` carries `response.json().get("id")`), and
the oracle for the nested repair attempt. -/
structure ProcOracle where
  createExn : Option String
  updateAnalyzingExn : Option String
  analysisResult : Except String (Option String)
  saveAnalysisExn : Option String
  triggerResult : Except String (Option String)
  saveTriggerExn : Option String
  updatePendingExn : Option String
  repair : RepairOracle
  updateFailedExn : Option String
  saveFailedExn : Option String
deriving DecidableEq, Repr

/-- The `try` block around `gemini_client.generate_incident_analysis`
in `process_incident`: on a truthy result, merge it into
`metadata["ai_analysis"]` on the in-memory object and save (a failing
save is caught by the same `except`); on any error log and continue. -/
def analysisStep (db : Database) (dbIncident : IncidentModel)
    (analysis : Except String (Option String)) (saveExn : Option String) :
    Database × IncidentModel :=
  match analysis with
  | Except.error _ => (db, dbIncident)
  | Except.ok none => (db, dbIncident)
  | Except.ok (some a) =>
      if a = "" then (db, dbIncident)
      else
        let inc1 := { dbIncident with
          incident_metadata :=
            some (metaSet (dbIncident.incident_metadata.getD []) "ai_analysis" a) }
        ((saveIncident db inc1 saveExn).1, inc1)

/-- The `try` block around `kestra_client.trigger_incident_flow` in
`process_incident`: on success store the execution handle on the
in-memory object and save (a failing save is caught by the same
`except`); on any error log and continue. -/
def triggerStep (db : Database) (dbIncident : IncidentModel)
    (trigger : Except String (Option String)) (saveExn : Option String) :
    Database × IncidentModel :=
  match trigger with
  | Except.error _ => (db, dbIncident)
  | Except.ok execId =>
      let inc1 := { dbIncident with kestra_execution_id := execId }
      ((saveIncident db inc1 saveExn).1, inc1)

/-- The body of the outer `try` of `process_incident` (after the
record has been created): move to ANALYZING, run the two best-effort
steps, then either run the repair attempt (auto-repair enabled) or
move back to PENDING.  The `Except.ok none` arms model
`_update_incident_status` returning `None` (record vanished — then the
first dereference of the `None` object raises `AttributeError`, which
is what eventually escapes; unreachable after a successful create). -/
def processTry (db : Database) (dbIncident : IncidentModel) (enableAutoRepair : Bool)
    (o : ProcOracle) : Database × Except String IncidentModel :=
  match updateIncidentStatus db dbIncident.id IncidentStatus.analyzing o.updateAnalyzingExn with
  | (db1, Except.error e) => (db1, Except.error e)
  | (db1, Except.ok none) => (db1, Except.error "AttributeError")
  | (db1, Except.ok (some inc1)) =>
      match analysisStep db1 inc1 o.analysisResult o.saveAnalysisExn with
      | (db2, inc2) =>
          match triggerStep db2 inc2 o.triggerResult o.saveTriggerExn with
          | (db3, inc3) =>
              if enableAutoRepair then
                (attemptAutoRepair db3 inc3 o.repair, Except.ok inc3)
              else
                match updateIncidentStatus db3 inc3.id IncidentStatus.pending
                    o.updatePendingExn with
                | (db4, Except.error e) => (db4, Except.error e)
                | (db4, Except.ok none) => (db4, Except.error "AttributeError")
                | (db4, Except.ok (some inc4)) => (db4, Except.ok inc4)

/-- The `except` handler of `process_incident`: force the record to
FAILED, embed the error in `resolution`, save, and re-raise the
original exception (an exception raised inside the handler itself
replaces it).  Returns the store and the exception that propagates. -/
def processExcept (db : Database) (incidentId : Nat) (e : String) (o : ProcOracle) :
    Database × String :=
  match updateIncidentStatus db incidentId IncidentStatus.failed o.updateFailedExn with
  | (db1, Except.error e2) => (db1, e2)
  | (db1, Except.ok none) => (db1, "AttributeError")
  | (db1, Except.ok (some incF)) =>
      let incF2 := { incF with resolution := some ("Processing failed: " ++ e) }
      match saveIncident db1 incF2 o.saveFailedExn with
      | (db2, Except.error e3) => (db2, e3)
      | (db2, Except.ok _) => (db2, e)

/-- `IncidentHandler.process_incident` (`enableAutoRepair` is
`settings.ENABLE_AUTO_REPAIR`): create the record — a failure there
propagates directly — then run the pipeline under the outer
`try`/`except`. -/
def processIncident (db : Database) (incident : IncidentRequest) (enableAutoRepair : Bool)
    (o : ProcOracle) : Database × Except String IncidentResponse :=
  match createIncidentRecord db incident o.createExn with
  | (db0, Except.error e) => (db0, Except.error e)
  | (db0, Except.ok dbIncident) =>
      match processTry db0 dbIncident enableAutoRepair o with
      | (db1, Except.ok incFinal) => (db1, Except.ok (toResponse incFinal))
      | (db1, Except.error e) =>
          match processExcept db1 dbIncident.id e o with
          | (db2, e2) => (db2, Except.error e2)

/-- Ordering used by `list_incidents`:
`order_by(IncidentModel.created_at.desc())`. -/
def createdDesc (a b : IncidentModel) : Prop :=
  b.created_at ≤ a.created_at

instance : DecidableRel createdDesc :=
  fun a b => inferInstanceAs (Decidable (b.created_at ≤ a.created_at))

instance : IsTotal IncidentModel createdDesc :=
  ⟨fun a b => (Nat.le_total a.created_at b.created_at).symm⟩

instance : IsTrans IncidentModel createdDesc :=
  ⟨fun _ _ _ h1 h2 => Nat.le_trans h2 h1⟩

/-- `IncidentHandler.list_incidents`: order by creation time
descending, apply `offset(skip).limit(limit)`, convert to responses. -/
def listIncidents (db : Database) (skip limit : Nat) : List IncidentResponse :=
  ((((List.insertionSort createdDesc db.incidents).drop skip).take limit).map toResponse)

/-- `trigger_repair` in `api.py` (`POST /api/repair`): look the
incident up through the handler (404 when absent — modelled as
`false`), re-query the session for the ORM object, and invoke
`_attempt_auto_repair` on it.  No status precondition is checked. -/
def triggerRepair (db : Database) (incidentId : Nat) (o : RepairOracle) : Database × Bool :=
  match getIncident db incidentId with
  | none => (db, false)
  | some _ =>
      match db.incidents.find? (fun i => i.id == incidentId) with
      | none => (db, false)
      | some dbIncident => (attemptAutoRepair db dbIncident o, true)

/-- Exception classes distinguished by `ClineRunner.execute_repair`:
`FileNotFoundError` versus every other `Exception`. -/
inductive PyExn
  | fileNotFound
  | other (msg : String)
deriving DecidableEq, Repr

/-- Behaviour of the Cline subprocess in `_run_cline_command`:
it completes with a return code and output streams, hits the
`asyncio.wait_for` timeout, the CLI binary is missing
(`FileNotFoundError` from `create_subprocess_exec`), or some other
exception escapes. -/
inductive ClineOutcome
  | completed (returncode : Nat) (stdout stderr : String)
  | timeout
  | spawnFileNotFound
  | otherError (msg : String)
deriving DecidableEq, Repr

/-- `settings.CLINE_TIMEOUT` as interpolated into the timeout message. -/
def CLINE_TIMEOUT_STR : String := "300.0"

/-- `ClineRunner._run_cline_command`: raise on a non-zero return code,
turn `asyncio.TimeoutError` into a plain `Exception` with a timeout
message, propagate `FileNotFoundError` from process spawning. -/
def runClineCommand : ClineOutcome → Except PyExn String
  | ClineOutcome.completed returncode stdout stderr =>
      if returncode ≠ 0 then Except.error (PyExn.other ("Cline failed: " ++ stderr))
      else Except.ok stdout
  | ClineOutcome.timeout =>
      Except.error (PyExn.other ("Timeout after " ++ CLINE_TIMEOUT_STR ++ "s"))
  | ClineOutcome.spawnFileNotFound => Except.error PyExn.fileNotFound
  | ClineOutcome.otherError msg => Except.error (PyExn.other msg)

/-- Outcomes of the two awaited operations inside
`ClineRunner.execute_repair`: task-file creation (a path, or an
exception) and the Cline command run. -/
structure ClineOracle where
  taskFile : Except PyExn String
  run : ClineOutcome
deriving DecidableEq, Repr

/-- `ClineRunner.execute_repair`: on success truncate stdout to 500
characters; `FileNotFoundError` and every other exception are caught
and converted into a simulated *successful* repair result. -/
def executeRepair (o : ClineOracle) : Except PyExn RepairResult :=
  match (match o.taskFile with
         | Except.error e => Except.error e
         | Except.ok _ => runClineCommand o.run) with
  | Except.ok result =>
      Except.ok { success := true, resolution := some (result.take 500), error := none }
  | Except.error PyExn.fileNotFound =>
      Except.ok { success := true
                  resolution := some "Simulated repair complete (Cline CLI unavailable)"
                  error := none }
  | Except.error (PyExn.other _) =>
      Except.ok { success := true
                  resolution := some "Simulated repair complete (Cline fallback)"
                  error := none }

/-- Behaviour of the Kestra HTTP call in
`KesteraClient.trigger_incident_flow`: a response (whose JSON `id` may
be absent), an `httpx` timeout (a subclass of `httpx.HTTPError`), or
another `httpx.HTTPError`. -/
inductive KestraOutcome
  | ok (execId : Option String)
  | timeoutError
  | httpError (msg : String)
deriving DecidableEq, Repr

/-- `KesteraClient.trigger_incident_flow`: return the execution id;
every `httpx.HTTPError` — timeouts included — is logged and re-raised. -/
def triggerIncidentFlow : KestraOutcome → Except String (Option String)
  | KestraOutcome.ok execId => Except.ok execId
  | KestraOutcome.timeoutError => Except.error "httpx.TimeoutException"
  | KestraOutcome.httpError msg => Except.error msg

/-- Is a state terminal in the §4.1 state machine? -/
def isTerminal : IncidentStatus → Bool
  | IncidentStatus.resolved => true
  | IncidentStatus.failed => true
  | _ => false

/-- The transition edges of spec §4.1: the five labelled edges plus the
fatal-failure edge from any non-terminal state. -/
def allowedEdge : IncidentStatus → IncidentStatus → Bool
  | IncidentStatus.pending, IncidentStatus.analyzing => true
  | IncidentStatus.analyzing, IncidentStatus.pending => true
  | IncidentStatus.analyzing, IncidentStatus.repairing => true
  | IncidentStatus.repairing, IncidentStatus.resolved => true
  | s, IncidentStatus.failed => !(isTerminal s)
  | _, _ => false

/-! ### List-level helper lemmas about lookup and in-place replacement -/

theorem ds_beq_of_find (l : List IncidentModel) (id0 : Nat) (r : IncidentModel)
    (hf : l.find? (fun i => i.id == id0) = some r) : r.id = id0 := by
  have h := List.find?_some hf
  simpa using h

theorem ds_find_replace_self (l : List IncidentModel) (id0 : Nat) (inc1 : IncidentModel)
    (h : inc1.id = id0) (r : IncidentModel)
    (hf : l.find? (fun i => i.id == id0) = some r) :
    (l.map (fun i => if i.id == id0 then inc1 else i)).find? (fun i => i.id == id0)
      = some inc1 := by
  induction l with
  | nil => simp at hf
  | cons a t ih =>
      by_cases ha : (a.id == id0) = true
      · rw [List.map_cons, if_pos ha]
        exact List.find?_cons_of_pos (p := fun (i : IncidentModel) => i.id == id0) _ (by simp [h])
      · rw [List.find?_cons_of_neg (p := fun (i : IncidentModel) => i.id == id0) _ ha] at hf
        rw [List.map_cons, if_neg ha,
          List.find?_cons_of_neg (p := fun (i : IncidentModel) => i.id == id0) _ ha]
        exact ih hf

theorem ds_find_replace_other (l : List IncidentModel) (id0 : Nat) (inc1 : IncidentModel)
    (h : inc1.id = id0) (j : Nat) (hj : j ≠ id0) :
    (l.map (fun i => if i.id == id0 then inc1 else i)).find? (fun i => i.id == j)
      = l.find? (fun i => i.id == j) := by
  induction l with
  | nil => simp
  | cons a t ih =>
      by_cases ha : (a.id == id0) = true
      · have haid : a.id = id0 := by simpa using ha
        have h1 : ¬ (inc1.id == j) = true := by simp [h]; exact Ne.symm hj
        have h2 : ¬ (a.id == j) = true := by simp [haid]; exact Ne.symm hj
        rw [List.map_cons, if_pos ha,
          List.find?_cons_of_neg (p := fun (i : IncidentModel) => i.id == j) _ h1,
          List.find?_cons_of_neg (p := fun (i : IncidentModel) => i.id == j) _ h2]
        exact ih
      · rw [List.map_cons, if_neg ha]
        by_cases haj : (a.id == j) = true
        · rw [List.find?_cons_of_pos (p := fun (i : IncidentModel) => i.id == j) _ haj,
            List.find?_cons_of_pos (p := fun (i : IncidentModel) => i.id == j) _ haj]
        · rw [List.find?_cons_of_neg (p := fun (i : IncidentModel) => i.id == j) _ haj,
            List.find?_cons_of_neg (p := fun (i : IncidentModel) => i.id == j) _ haj]
          exact ih

theorem ds_find_fresh (db : Database) (hWF : db.WF) :
    db.incidents.find? (fun i => i.id == db.nextId) = none := by
  rw [List.find?_eq_none]
  intro x hx
  have := hWF x hx
  simp [Nat.ne_of_lt this]

/-! ### Specification lemmas for the repository primitives -/

theorem create_eq (db : Database) (req : IncidentRequest) :
    createIncidentRecord db req none =
      ({ db with
          incidents := db.incidents ++ [freshIncident db req]
          nextId := db.nextId + 1
          now := db.now + 1 },
        Except.ok (freshIncident db req)) := rfl

theorem create_exn (db : Database) (req : IncidentRequest) (e : String) :
    createIncidentRecord db req (some e) = (db, Except.error e) := rfl

theorem getIncident_create_self (db : Database) (req : IncidentRequest) (hWF : db.WF) :
    getIncident (createIncidentRecord db req none).1 db.nextId = some (freshIncident db req) := by
  simp only [create_eq, getIncident, List.find?_append, ds_find_fresh db hWF]
  simp [List.find?, freshIncident]

theorem create_wf (db : Database) (req : IncidentRequest) (hWF : db.WF) :
    (createIncidentRecord db req none).1.WF := by
  simp only [create_eq]
  intro i hi
  simp only [List.mem_append, List.mem_singleton] at hi
  rcases hi with hi | hi
  · exact Nat.lt_succ_of_lt (hWF i hi)
  · subst hi; simp [freshIncident]

theorem update_exn (db : Database) (id0 : Nat) (st : IncidentStatus) (e : String) :
    updateIncidentStatus db id0 st (some e) = (db, Except.error e) := rfl

theorem update_notfound (db : Database) (id0 : Nat) (st : IncidentStatus)
    (hn : getIncident db id0 = none) :
    updateIncidentStatus db id0 st none = (db, Except.ok none) := by
  simp only [getIncident] at hn
  simp [updateIncidentStatus, hn]

theorem update_found_eq (db : Database) (id0 : Nat) (st : IncidentStatus) (r : IncidentModel)
    (hf : getIncident db id0 = some r) :
    updateIncidentStatus db id0 st none =
      ({ db with
          incidents := db.incidents.map
            (fun i => if i.id == id0 then { r with status := st, updated_at := db.now } else i)
          now := db.now + 1
          trace := if r.status = st then db.trace else db.trace ++ [(r.status, st)] },
        Except.ok (some { r with status := st, updated_at := db.now })) := by
  simp only [getIncident] at hf
  simp [updateIncidentStatus, hf]

theorem update_found_self (db : Database) (id0 : Nat) (st : IncidentStatus) (r : IncidentModel)
    (hf : getIncident db id0 = some r) :
    getIncident (updateIncidentStatus db id0 st none).1 id0
      = some { r with status := st, updated_at := db.now } := by
  have hid : r.id = id0 := ds_beq_of_find _ _ _ (by simpa [getIncident] using hf)
  simp only [update_found_eq db id0 st r hf, getIncident]
  exact ds_find_replace_self _ _ _ (by simp [hid]) r (by simpa [getIncident] using hf)

theorem update_found_other (db : Database) (id0 : Nat) (st : IncidentStatus) (r : IncidentModel)
    (hf : getIncident db id0 = some r) (j : Nat) (hj : j ≠ id0) :
    getIncident (updateIncidentStatus db id0 st none).1 j = getIncident db j := by
  have hid : r.id = id0 := ds_beq_of_find _ _ _ (by simpa [getIncident] using hf)
  simp only [update_found_eq db id0 st r hf, getIncident]
  exact ds_find_replace_other _ _ _ (by simp [hid]) j hj

theorem update_found_statusOf (db : Database) (id0 : Nat) (st : IncidentStatus)
    (r : IncidentModel) (hf : getIncident db id0 = some r) (j : Nat) :
    statusOf (updateIncidentStatus db id0 st none).1 j
      = if j = id0 then some st else statusOf db j := by
  by_cases hj : j = id0
  · subst hj; simp [statusOf, update_found_self db j st r hf]
  · simp [statusOf, update_found_other db id0 st r hf j hj, hj]

theorem update_found_trace (db : Database) (id0 : Nat) (st : IncidentStatus) (r : IncidentModel)
    (hf : getIncident db id0 = some r) :
    (updateIncidentStatus db id0 st none).1.trace
      = if r.status = st then db.trace else db.trace ++ [(r.status, st)] := by
  simp [update_found_eq db id0 st r hf]

theorem update_found_nextId (db : Database) (id0 : Nat) (st : IncidentStatus) (r : IncidentModel)
    (hf : getIncident db id0 = some r) :
    (updateIncidentStatus db id0 st none).1.nextId = db.nextId := by
  simp [update_found_eq db id0 st r hf]

theorem update_found_wf (db : Database) (id0 : Nat) (st : IncidentStatus) (r : IncidentModel)
    (hf : getIncident db id0 = some r) (hWF : db.WF) :
    (updateIncidentStatus db id0 st none).1.WF := by
  have hid : r.id = id0 := ds_beq_of_find _ _ _ (by simpa [getIncident] using hf)
  have hr : r ∈ db.incidents := List.mem_of_find?_eq_some (by simpa [getIncident] using hf)
  simp only [update_found_eq db id0 st r hf]
  intro i hi
  simp only [List.mem_map] at hi
  rcases hi with ⟨x, hx, hxi⟩
  by_cases hxid : (x.id == id0) = true
  · rw [if_pos hxid] at hxi
    subst hxi
    simpa [hid] using hWF r hr
  · rw [if_neg hxid] at hxi
    subst hxi
    exact hWF x hx

theorem save_exn (db : Database) (inc : IncidentModel) (e : String) :
    saveIncident db inc (some e) = (db, Except.error e) := rfl

theorem save_found_eq (db : Database) (inc old : IncidentModel)
    (hf : getIncident db inc.id = some old) :
    saveIncident db inc none =
      ({ db with
          incidents := db.incidents.map
            (fun i => if i.id == inc.id then { inc with updated_at := db.now } else i)
          now := db.now + 1
          trace :=
            if old.status = inc.status then db.trace
            else db.trace ++ [(old.status, inc.status)] },
        Except.ok ()) := by
  simp only [getIncident] at hf
  simp [saveIncident, hf]

theorem save_found_self (db : Database) (inc old : IncidentModel)
    (hf : getIncident db inc.id = some old) :
    getIncident (saveIncident db inc none).1 inc.id = some { inc with updated_at := db.now } := by
  simp only [save_found_eq db inc old hf, getIncident]
  exact ds_find_replace_self _ _ _ (by simp) old (by simpa [getIncident] using hf)

theorem save_found_other (db : Database) (inc old : IncidentModel)
    (hf : getIncident db inc.id = some old) (j : Nat) (hj : j ≠ inc.id) :
    getIncident (saveIncident db inc none).1 j = getIncident db j := by
  simp only [save_found_eq db inc old hf, getIncident]
  exact ds_find_replace_other _ _ _ (by simp) j hj

theorem save_found_statusOf (db : Database) (inc old : IncidentModel)
    (hf : getIncident db inc.id = some old) (j : Nat) :
    statusOf (saveIncident db inc none).1 j
      = if j = inc.id then some inc.status else statusOf db j := by
  by_cases hj : j = inc.id
  · subst hj; simp [statusOf, save_found_self db inc old hf]
  · simp [statusOf, save_found_other db inc old hf j hj, hj]

theorem save_found_trace (db : Database) (inc old : IncidentModel)
    (hf : getIncident db inc.id = some old) :
    (saveIncident db inc none).1.trace
      = if old.status = inc.status then db.trace
        else db.trace ++ [(old.status, inc.status)] := by
  simp [save_found_eq db inc old hf]

theorem save_found_nextId (db : Database) (inc old : IncidentModel)
    (hf : getIncident db inc.id = some old) :
    (saveIncident db inc none).1.nextId = db.nextId := by
  simp [save_found_eq db inc old hf]

theorem save_found_wf (db : Database) (inc old : IncidentModel)
    (hf : getIncident db inc.id = some old) (hWF : db.WF) :
    (saveIncident db inc none).1.WF := by
  have hid : old.id = inc.id := ds_beq_of_find _ _ _ (by simpa [getIncident] using hf)
  have hr : old ∈ db.incidents := List.mem_of_find?_eq_some (by simpa [getIncident] using hf)
  simp only [save_found_eq db inc old hf]
  intro i hi
  simp only [List.mem_map] at hi
  rcases hi with ⟨x, hx, hxi⟩
  by_cases hxid : (x.id == inc.id) = true
  · rw [if_pos hxid] at hxi
    subst hxi
    simpa [hid] using hWF old hr
  · rw [if_neg hxid] at hxi
    subst hxi
    exact hWF x hx

/-! ### Trace monotonicity: the primitives only append to the ghost trace -/

theorem update_trace_mono (db : Database) (id0 : Nat) (st : IncidentStatus) (exn : Option String)
    (p : IncidentStatus × IncidentStatus) (hp : p ∈ db.trace) :
    p ∈ (updateIncidentStatus db id0 st exn).1.trace := by
  cases exn with
  | some e => simpa [update_exn] using hp
  | none =>
      cases hfind : getIncident db id0 with
      | none => simpa [update_notfound db id0 st hfind] using hp
      | some r =>
          rw [update_found_trace db id0 st r hfind]
          by_cases hst : r.status = st
      <;> simp [hst, hp]

theorem save_trace_mono (db : Database) (inc : IncidentModel) (exn : Option String)
    (p : IncidentStatus × IncidentStatus) (hp : p ∈ db.trace) :
    p ∈ (saveIncident db inc exn).1.trace := by
  cases exn with
  | some e => simpa [save_exn] using hp
  | none =>
      cases hfind : getIncident db inc.id with
      | none =>
          simp only [getIncident] at hfind
          simp only [saveIncident, hfind]
          exact hp
      | some old =>
          rw [save_found_trace db inc old hfind]
          by_cases hst : old.status = inc.status
      <;> simp [hst, hp]

theorem save_keep_spec (db : Database) (inc old : IncidentModel)
    (hf : getIncident db inc.id = some old) (hst : old.status = inc.status) :
    (∀ j, statusOf (saveIncident db inc none).1 j = statusOf db j) ∧
    (saveIncident db inc none).1.trace = db.trace ∧
    (saveIncident db inc none).1.nextId = db.nextId ∧
    (db.WF → (saveIncident db inc none).1.WF) := by
  refine ⟨?_, ?_, save_found_nextId db inc old hf, save_found_wf db inc old hf⟩
  · intro j
    rw [save_found_statusOf db inc old hf j]
    by_cases hj : j = inc.id
    · subst hj
      have : statusOf db inc.id = some old.status := by simp [statusOf, hf]
      simp [this, hst]
    · simp [hj]
  · rw [save_found_trace db inc old hf]
    simp [hst]

/-! ### Specification of the best-effort pipeline steps: each preserves
every stored status, the ghost trace, the id counter, well-formedness,
and the id/status of the threaded in-memory object. -/

theorem analysisStep_spec (db : Database) (dbi : IncidentModel)
    (a : Except String (Option String)) (sx : Option String)
    (hst : statusOf db dbi.id = some dbi.status) :
    (analysisStep db dbi a sx).2.id = dbi.id ∧
    (analysisStep db dbi a sx).2.status = dbi.status ∧
    (∀ j, statusOf (analysisStep db dbi a sx).1 j = statusOf db j) ∧
    (analysisStep db dbi a sx).1.trace = db.trace ∧
    (analysisStep db dbi a sx).1.nextId = db.nextId ∧
    (db.WF → (analysisStep db dbi a sx).1.WF) := by
  obtain ⟨old, hold, holdst⟩ :
      ∃ old, getIncident db dbi.id = some old ∧ old.status = dbi.status := by
    simpa [statusOf, Option.map_eq_some'] using hst
  match a with
  | Except.error e => simp [analysisStep]
  | Except.ok none => simp [analysisStep]
  | Except.ok (some s) =>
      by_cases hs : s = ""
      · simp [analysisStep, hs]
      · simp only [analysisStep, if_neg hs]
        match sx with
        | some e => simp [save_exn]
        | none => exact ⟨trivial, trivial, save_keep_spec db _ old hold holdst⟩

theorem triggerStep_spec (db : Database) (dbi : IncidentModel)
    (t : Except String (Option String)) (sx : Option String)
    (hst : statusOf db dbi.id = some dbi.status) :
    (triggerStep db dbi t sx).2.id = dbi.id ∧
    (triggerStep db dbi t sx).2.status = dbi.status ∧
    (∀ j, statusOf (triggerStep db dbi t sx).1 j = statusOf db j) ∧
    (triggerStep db dbi t sx).1.trace = db.trace ∧
    (triggerStep db dbi t sx).1.nextId = db.nextId ∧
    (db.WF → (triggerStep db dbi t sx).1.WF) := by
  obtain ⟨old, hold, holdst⟩ :
      ∃ old, getIncident db dbi.id = some old ∧ old.status = dbi.status := by
    simpa [statusOf, Option.map_eq_some'] using hst
  match t with
  | Except.error e => simp [triggerStep]
  | Except.ok execId =>
      simp only [triggerStep]
      match sx with
      | some e => simp [save_exn]
      | none => exact ⟨trivial, trivial, save_keep_spec db _ old hold holdst⟩

theorem suggestStep_spec (db : Database) (dbi : IncidentModel)
    (sg : Except String (Option String)) (sx : Option String)
    (hst : statusOf db dbi.id = some dbi.status) :
    (suggestStep db dbi sg sx).2.1.id = dbi.id ∧
    (suggestStep db dbi sg sx).2.1.status = dbi.status ∧
    (∀ j, statusOf (suggestStep db dbi sg sx).1 j = statusOf db j) ∧
    (suggestStep db dbi sg sx).1.trace = db.trace ∧
    (suggestStep db dbi sg sx).1.nextId = db.nextId ∧
    (db.WF → (suggestStep db dbi sg sx).1.WF) := by
  obtain ⟨old, hold, holdst⟩ :
      ∃ old, getIncident db dbi.id = some old ∧ old.status = dbi.status := by
    simpa [statusOf, Option.map_eq_some'] using hst
  match sg with
  | Except.error e => simp [suggestStep]
  | Except.ok none => simp [suggestStep]
  | Except.ok (some s) =>
      by_cases hs : s = ""
      · simp [suggestStep, hs]
      · simp only [suggestStep, if_neg hs]
        match sx with
        | some e => simp [save_exn]
        | none => exact ⟨trivial, trivial, save_keep_spec db _ old hold holdst⟩

/-! ### Characterisation of the repair-attempt subroutine -/

theorem update_found_pair (db : Database) (id0 : Nat) (st : IncidentStatus) (r : IncidentModel)
    (hf : getIncident db id0 = some r) :
    updateIncidentStatus db id0 st none
      = ((updateIncidentStatus db id0 st none).1,
         Except.ok (some { r with status := st, updated_at := db.now })) := by
  rw [update_found_eq db id0 st r hf]

theorem AR_exn_eq (db : Database) (inc : IncidentModel) (o : RepairOracle) (e : String)
    (hux : o.updateRepairingExn = some e) :
    attemptAutoRepair db inc o = db := by
  simp [attemptAutoRepair, hux, update_exn]

theorem AR_notfound_eq (db : Database) (inc : IncidentModel) (o : RepairOracle)
    (hux : o.updateRepairingExn = none) (hn : getIncident db inc.id = none) :
    attemptAutoRepair db inc o = db := by
  simp [attemptAutoRepair, hux, update_notfound db inc.id IncidentStatus.repairing hn]

theorem AR_found_eq (db : Database) (inc r : IncidentModel) (o : RepairOracle)
    (hux : o.updateRepairingExn = none) (hfind : getIncident db inc.id = some r) :
    attemptAutoRepair db inc o =
      (match (suggestStep (updateIncidentStatus db inc.id IncidentStatus.repairing none).1
                { r with status := IncidentStatus.repairing, updated_at := db.now }
                o.suggestResult o.saveSuggestExn) with
       | (db2, inc2, _) =>
          match o.execResult with
          | Except.error _ => db2
          | Except.ok rr =>
              (saveIncident db2
                (if rr.success then
                  { inc2 with
                      status := IncidentStatus.resolved
                      resolution := some (rr.resolution.getD "Auto-repaired successfully") }
                 else
                  { inc2 with
                      status := IncidentStatus.failed
                      resolution := some ("Auto-repair failed: " ++ rr.error.getD "None") })
                o.saveFinalExn).1) := by
  simp only [attemptAutoRepair, hux]
  rw [update_found_pair db inc.id IncidentStatus.repairing r hfind]

theorem AR_trace (db : Database) (inc : IncidentModel) (o : RepairOracle) :
    ∀ p ∈ (attemptAutoRepair db inc o).trace,
      p ∈ db.trace ∨
      (∃ s0, statusOf db inc.id = some s0 ∧ p = (s0, IncidentStatus.repairing)) ∨
      (∃ rr, o.execResult = Except.ok rr ∧
        p = (IncidentStatus.repairing,
             if rr.success then IncidentStatus.resolved else IncidentStatus.failed)) := by
  intro p hp
  cases hux : o.updateRepairingExn with
  | some e => rw [AR_exn_eq db inc o e hux] at hp; exact Or.inl hp
  | none =>
    cases hfind : getIncident db inc.id with
    | none => rw [AR_notfound_eq db inc o hux hfind] at hp; exact Or.inl hp
    | some r =>
      rw [AR_found_eq db inc r o hux hfind] at hp
      have hrid : r.id = inc.id := ds_beq_of_find _ _ _ (by simpa [getIncident] using hfind)
      have hst1 := update_found_statusOf db inc.id IncidentStatus.repairing r hfind
      have htr1 := update_found_trace db inc.id IncidentStatus.repairing r hfind
      obtain ⟨hid2, hstat2, hpres2, htr2, _, _⟩ :=
        suggestStep_spec (updateIncidentStatus db inc.id IncidentStatus.repairing none).1
          { r with status := IncidentStatus.repairing, updated_at := db.now }
          o.suggestResult o.saveSuggestExn (by rw [hst1]; simp [hrid])
      rcases hss : suggestStep (updateIncidentStatus db inc.id IncidentStatus.repairing none).1
          { r with status := IncidentStatus.repairing, updated_at := db.now }
          o.suggestResult o.saveSuggestExn with ⟨db2, inc2, sug⟩
      rw [hss] at hp hid2 hstat2 hpres2 htr2
      simp only at hp hid2 hstat2 hpres2 htr2
      have base : ∀ q, q ∈ db2.trace →
          q ∈ db.trace ∨
          (∃ s0, statusOf db inc.id = some s0 ∧ q = (s0, IncidentStatus.repairing)) := by
        intro q hq
        rw [htr2, htr1] at hq
        by_cases hreq : r.status = IncidentStatus.repairing
        · rw [if_pos hreq] at hq; exact Or.inl hq
        · rw [if_neg hreq] at hq
          rcases List.mem_append.mp hq with hq | hq
          · exact Or.inl hq
          · right
            refine ⟨r.status, by simp [statusOf, hfind], ?_⟩
            simpa using hq
      cases hex : o.execResult with
      | error e =>
          rw [hex] at hp
          dsimp only at hp
          rcases base p hp with h | h
          · exact Or.inl h
          · exact Or.inr (Or.inl h)
      | ok rr =>
          rw [hex] at hp
          dsimp only at hp
          have hst2 : statusOf db2 inc.id = some IncidentStatus.repairing := by
            rw [hpres2, hst1]; simp
          obtain ⟨old2, hold2, hold2st⟩ :
              ∃ u, getIncident db2 inc.id = some u ∧ u.status = IncidentStatus.repairing := by
            simpa [statusOf, Option.map_eq_some'] using hst2
          by_cases hsucc : rr.success = true
          · rw [if_pos hsucc] at hp
            cases hsx : o.saveFinalExn with
            | some e =>
                rw [hsx, save_exn] at hp
                rcases base p hp with h | h
                · exact Or.inl h
                · exact Or.inr (Or.inl h)
            | none =>
                rw [hsx] at hp
                have hf2 : getIncident db2
                    ({ inc2 with
                        status := IncidentStatus.resolved
                        resolution :=
                          some (rr.resolution.getD "Auto-repaired successfully") } :
                      IncidentModel).id = some old2 := by
                  simpa [hid2, hrid] using hold2
                rw [save_found_trace db2 _ old2 hf2] at hp
                rw [if_neg (by simp [hold2st])] at hp
                rcases List.mem_append.mp hp with hq | hq
                · rcases base p hq with h | h
                  · exact Or.inl h
                  · exact Or.inr (Or.inl h)
                · refine Or.inr (Or.inr ⟨rr, rfl, ?_⟩)
                  simp only [List.mem_singleton] at hq
                  simp [hq, hold2st, hsucc]
          · rw [if_neg hsucc] at hp
            cases hsx : o.saveFinalExn with
            | some e =>
                rw [hsx, save_exn] at hp
                rcases base p hp with h | h
                · exact Or.inl h
                · exact Or.inr (Or.inl h)
            | none =>
                rw [hsx] at hp
                have hf2 : getIncident db2
                    ({ inc2 with
                        status := IncidentStatus.failed
                        resolution :=
                          some ("Auto-repair failed: " ++ rr.error.getD "None") } :
                      IncidentModel).id = some old2 := by
                  simpa [hid2, hrid] using hold2
                rw [save_found_trace db2 _ old2 hf2] at hp
                rw [if_neg (by simp [hold2st])] at hp
                rcases List.mem_append.mp hp with hq | hq
                · rcases base p hq with h | h
                  · exact Or.inl h
                  · exact Or.inr (Or.inl h)
                · refine Or.inr (Or.inr ⟨rr, rfl, ?_⟩)
                  simp only [List.mem_singleton] at hq
                  simp [hq, hold2st, hsucc]

theorem AR_exec_ok (db : Database) (inc : IncidentModel) (o : RepairOracle) (rr : RepairResult)
    (r : IncidentModel) (hfind : getIncident db inc.id = some r)
    (hux : o.updateRepairingExn = none) (hex : o.execResult = Except.ok rr)
    (hsx : o.saveFinalExn = none) :
    ∃ u, getIncident (attemptAutoRepair db inc o) inc.id = some u ∧
      u.status = (if rr.success then IncidentStatus.resolved else IncidentStatus.failed) ∧
      u.resolution = some (if rr.success then rr.resolution.getD "Auto-repaired successfully"
                           else "Auto-repair failed: " ++ rr.error.getD "None") := by
  rw [AR_found_eq db inc r o hux hfind]
  have hrid : r.id = inc.id := ds_beq_of_find _ _ _ (by simpa [getIncident] using hfind)
  have hst1 := update_found_statusOf db inc.id IncidentStatus.repairing r hfind
  obtain ⟨hid2, hstat2, hpres2, _, _, _⟩ :=
    suggestStep_spec (updateIncidentStatus db inc.id IncidentStatus.repairing none).1
      { r with status := IncidentStatus.repairing, updated_at := db.now }
      o.suggestResult o.saveSuggestExn (by rw [hst1]; simp [hrid])
  rcases hss : suggestStep (updateIncidentStatus db inc.id IncidentStatus.repairing none).1
      { r with status := IncidentStatus.repairing, updated_at := db.now }
      o.suggestResult o.saveSuggestExn with ⟨db2, inc2, sug⟩
  rw [hss] at hid2 hstat2 hpres2
  simp only at hid2 hstat2 hpres2
  rw [hex, hsx]
  dsimp only
  have hst2 : statusOf db2 inc.id = some IncidentStatus.repairing := by
    rw [hpres2, hst1]; simp
  obtain ⟨old2, hold2, hold2st⟩ :
      ∃ u, getIncident db2 inc.id = some u ∧ u.status = IncidentStatus.repairing := by
    simpa [statusOf, Option.map_eq_some'] using hst2
  by_cases hsucc : rr.success = true
  · rw [if_pos hsucc]
    have hf2 : getIncident db2
        ({ inc2 with
            status := IncidentStatus.resolved
            resolution := some (rr.resolution.getD "Auto-repaired successfully") } :
          IncidentModel).id = some old2 := by
      simpa [hid2, hrid] using hold2
    have hget := save_found_self db2 _ old2 hf2
    have hidk : ({ inc2 with
        status := IncidentStatus.resolved
        resolution := some (rr.resolution.getD "Auto-repaired successfully") } :
          IncidentModel).id = inc.id := by simp [hid2, hrid]
    rw [← hidk]
    exact ⟨_, hget, by simp [hsucc], by simp [hsucc]⟩
  · rw [if_neg hsucc]
    have hf2 : getIncident db2
        ({ inc2 with
            status := IncidentStatus.failed
            resolution := some ("Auto-repair failed: " ++ rr.error.getD "None") } :
          IncidentModel).id = some old2 := by
      simpa [hid2, hrid] using hold2
    have hget := save_found_self db2 _ old2 hf2
    have hidk : ({ inc2 with
        status := IncidentStatus.failed
        resolution := some ("Auto-repair failed: " ++ rr.error.getD "None") } :
          IncidentModel).id = inc.id := by simp [hid2, hrid]
    rw [← hidk]
    exact ⟨_, hget, by simp [hsucc], by simp [hsucc]⟩

theorem AR_exec_error (db : Database) (inc : IncidentModel) (o : RepairOracle) (e : String)
    (r : IncidentModel) (hfind : getIncident db inc.id = some r)
    (hux : o.updateRepairingExn = none) (hex : o.execResult = Except.error e) :
    statusOf (attemptAutoRepair db inc o) inc.id = some IncidentStatus.repairing := by
  rw [AR_found_eq db inc r o hux hfind]
  have hrid : r.id = inc.id := ds_beq_of_find _ _ _ (by simpa [getIncident] using hfind)
  have hst1 := update_found_statusOf db inc.id IncidentStatus.repairing r hfind
  obtain ⟨hid2, hstat2, hpres2, _, _, _⟩ :=
    suggestStep_spec (updateIncidentStatus db inc.id IncidentStatus.repairing none).1
      { r with status := IncidentStatus.repairing, updated_at := db.now }
      o.suggestResult o.saveSuggestExn (by rw [hst1]; simp [hrid])
  rcases hss : suggestStep (updateIncidentStatus db inc.id IncidentStatus.repairing none).1
      { r with status := IncidentStatus.repairing, updated_at := db.now }
      o.suggestResult o.saveSuggestExn with ⟨db2, inc2, sug⟩
  rw [hss] at hpres2
  simp only at hpres2
  rw [hex]
  dsimp only
  rw [hpres2, hst1]
  simp

theorem AR_sim (db dbA : Database) (inc incA : IncidentModel) (o oA : RepairOracle)
    (hR : ∀ j, statusOf db j = statusOf dbA j) (hid : inc.id = incA.id)
    (h1 : o.updateRepairingExn = oA.updateRepairingExn)
    (h2 : o.execResult = oA.execResult) (h3 : o.saveFinalExn = oA.saveFinalExn) :
    ∀ j, statusOf (attemptAutoRepair db inc o) j = statusOf (attemptAutoRepair dbA incA oA) j := by
  intro j
  cases hux : o.updateRepairingExn with
  | some e =>
      have huxA : oA.updateRepairingExn = some e := by rw [← h1]; exact hux
      rw [AR_exn_eq db inc o e hux, AR_exn_eq dbA incA oA e huxA]
      exact hR j
  | none =>
      have huxA : oA.updateRepairingExn = none := by rw [← h1]; exact hux
      cases hfind : getIncident db inc.id with
      | none =>
          have hnA : statusOf dbA inc.id = none := by
            rw [← hR inc.id]; simp [statusOf, hfind]
          have hfindA : getIncident dbA incA.id = none := by
            rw [← hid]
            simpa [statusOf, Option.map_eq_none'] using hnA
          rw [AR_notfound_eq db inc o hux hfind, AR_notfound_eq dbA incA oA huxA hfindA]
          exact hR j
      | some r =>
          have hcross : statusOf dbA incA.id = some r.status := by
            rw [← hid, ← hR inc.id]; simp [statusOf, hfind]
          obtain ⟨rA, hfindA, hrAst⟩ :
              ∃ rA, getIncident dbA incA.id = some rA ∧ rA.status = r.status := by
            simpa [statusOf, Option.map_eq_some'] using hcross
          have hrid : r.id = inc.id := ds_beq_of_find _ _ _ (by simpa [getIncident] using hfind)
          have hridA : rA.id = incA.id :=
            ds_beq_of_find _ _ _ (by simpa [getIncident] using hfindA)
          rw [AR_found_eq db inc r o hux hfind, AR_found_eq dbA incA rA oA huxA hfindA]
          have hst1 := update_found_statusOf db inc.id IncidentStatus.repairing r hfind
          have hst1A := update_found_statusOf dbA incA.id IncidentStatus.repairing rA hfindA
          have hR1 : ∀ k, statusOf (updateIncidentStatus db inc.id
                IncidentStatus.repairing none).1 k
              = statusOf (updateIncidentStatus dbA incA.id IncidentStatus.repairing none).1 k := by
            intro k
            rw [hst1, hst1A, hid]
            by_cases hk : k = incA.id
            · simp [hk]
            · simp [hk, hR k]
          obtain ⟨hid2, hstat2, hpres2, _, _, _⟩ :=
            suggestStep_spec (updateIncidentStatus db inc.id IncidentStatus.repairing none).1
              { r with status := IncidentStatus.repairing, updated_at := db.now }
              o.suggestResult o.saveSuggestExn (by rw [hst1]; simp [hrid])
          obtain ⟨hid2A, hstat2A, hpres2A, _, _, _⟩ :=
            suggestStep_spec (updateIncidentStatus dbA incA.id IncidentStatus.repairing none).1
              { rA with status := IncidentStatus.repairing, updated_at := dbA.now }
              oA.suggestResult oA.saveSuggestExn (by rw [hst1A]; simp [hridA])
          rcases hss : suggestStep (updateIncidentStatus db inc.id
                IncidentStatus.repairing none).1
              { r with status := IncidentStatus.repairing, updated_at := db.now }
              o.suggestResult o.saveSuggestExn with ⟨db2, inc2, sug⟩
          rcases hssA : suggestStep (updateIncidentStatus dbA incA.id
                IncidentStatus.repairing none).1
              { rA with status := IncidentStatus.repairing, updated_at := dbA.now }
              oA.suggestResult oA.saveSuggestExn with ⟨db2A, inc2A, sugA⟩
          rw [hss] at hid2 hstat2 hpres2
          rw [hssA] at hid2A hstat2A hpres2A
          simp only at hid2 hstat2 hpres2 hid2A hstat2A hpres2A
          have hR2 : ∀ k, statusOf db2 k = statusOf db2A k := by
            intro k; rw [hpres2 k, hpres2A k]; exact hR1 k
          have hid2i : inc2.id = inc.id := by rw [hid2, hrid]
          have hid2iA : inc2A.id = incA.id := by rw [hid2A, hridA]
          cases hex : o.execResult with
          | error e =>
              have hexA : oA.execResult = Except.error e := by rw [← h2]; exact hex
              rw [hexA]
              dsimp only
              exact hR2 j
          | ok rr =>
              have hexA : oA.execResult = Except.ok rr := by rw [← h2]; exact hex
              rw [hexA]
              dsimp only
              cases hsx : o.saveFinalExn with
              | some e =>
                  have hsxA : oA.saveFinalExn = some e := by rw [← h3]; exact hsx
                  rw [hsxA, save_exn, save_exn]
                  exact hR2 j
              | none =>
                  have hsxA : oA.saveFinalExn = none := by rw [← h3]; exact hsx
                  rw [hsxA]
                  have hst2 : statusOf db2 inc.id = some IncidentStatus.repairing := by
                    rw [hpres2, hst1]; simp
                  have hst2A : statusOf db2A incA.id = some IncidentStatus.repairing := by
                    rw [hpres2A, hst1A]; simp
                  obtain ⟨old2, hold2, _⟩ :
                      ∃ u, getIncident db2 inc.id = some u ∧
                        u.status = IncidentStatus.repairing := by
                    simpa [statusOf, Option.map_eq_some'] using hst2
                  obtain ⟨old2A, hold2A, _⟩ :
                      ∃ u, getIncident db2A incA.id = some u ∧
                        u.status = IncidentStatus.repairing := by
                    simpa [statusOf, Option.map_eq_some'] using hst2A
                  by_cases hsucc : rr.success = true
                  · rw [if_pos hsucc, if_pos hsucc]
                    have hf2 : getIncident db2
                        ({ inc2 with
                            status := IncidentStatus.resolved
                            resolution :=
                              some (rr.resolution.getD "Auto-repaired successfully") } :
                          IncidentModel).id = some old2 := by
                      simpa [hid2i] using hold2
                    have hf2A : getIncident db2A
                        ({ inc2A with
                            status := IncidentStatus.resolved
                            resolution :=
                              some (rr.resolution.getD "Auto-repaired successfully") } :
                          IncidentModel).id = some old2A := by
                      simpa [hid2iA] using hold2A
                    rw [save_found_statusOf db2 _ old2 hf2 j,
                      save_found_statusOf db2A _ old2A hf2A j]
                    by_cases hj : j = inc.id
                    · simp [hj, hid2i, hid2iA, ← hid]
                    · have hjA : j ≠ incA.id := by rw [← hid]; exact hj
                      simp [hid2i, hid2iA, hj, hjA, hR2 j]
                  · rw [if_neg hsucc, if_neg hsucc]
                    have hf2 : getIncident db2
                        ({ inc2 with
                            status := IncidentStatus.failed
                            resolution :=
                              some ("Auto-repair failed: " ++ rr.error.getD "None") } :
                          IncidentModel).id = some old2 := by
                      simpa [hid2i] using hold2
                    have hf2A : getIncident db2A
                        ({ inc2A with
                            status := IncidentStatus.failed
                            resolution :=
                              some ("Auto-repair failed: " ++ rr.error.getD "None") } :
                          IncidentModel).id = some old2A := by
                      simpa [hid2iA] using hold2A
                    rw [save_found_statusOf db2 _ old2 hf2 j,
                      save_found_statusOf db2A _ old2A hf2A j]
                    by_cases hj : j = inc.id
                    · simp [hj, hid2i, hid2iA, ← hid]
                    · have hjA : j ≠ incA.id := by rw [← hid]; exact hj
                      simp [hid2i, hid2iA, hj, hjA, hR2 j]

theorem save_none_pair (db : Database) (inc : IncidentModel) :
    saveIncident db inc none = ((saveIncident db inc none).1, Except.ok ()) := by
  simp only [saveIncident]
  cases db.incidents.find? (fun i => i.id == inc.id) <;> rfl

theorem processExcept_trace (db : Database) (id0 : Nat) (e : String) (o : ProcOracle) :
    ∀ p ∈ (processExcept db id0 e o).1.trace,
      p ∈ db.trace ∨
      (∃ s0, statusOf db id0 = some s0 ∧ p = (s0, IncidentStatus.failed) ∧
        s0 ≠ IncidentStatus.failed) := by
  intro p hp
  cases hux : o.updateFailedExn with
  | some e2 =>
      simp only [processExcept, hux, update_exn] at hp
      exact Or.inl hp
  | none =>
      cases hfind : getIncident db id0 with
      | none =>
          simp only [processExcept, hux,
            update_notfound db id0 IncidentStatus.failed hfind] at hp
          exact Or.inl hp
      | some r =>
          have hrid : r.id = id0 := ds_beq_of_find _ _ _ (by simpa [getIncident] using hfind)
          simp only [processExcept, hux] at hp
          rw [update_found_pair db id0 IncidentStatus.failed r hfind] at hp
          have htr1 := update_found_trace db id0 IncidentStatus.failed r hfind
          have hst1 := update_found_statusOf db id0 IncidentStatus.failed r hfind
          have base : ∀ q, q ∈ (updateIncidentStatus db id0 IncidentStatus.failed none).1.trace →
              q ∈ db.trace ∨
              (∃ s0, statusOf db id0 = some s0 ∧ q = (s0, IncidentStatus.failed) ∧
                s0 ≠ IncidentStatus.failed) := by
            intro q hq
            rw [htr1] at hq
            by_cases hrs : r.status = IncidentStatus.failed
            · rw [if_pos hrs] at hq; exact Or.inl hq
            · rw [if_neg hrs] at hq
              rcases List.mem_append.mp hq with h | h
              · exact Or.inl h
              · right
                exact ⟨r.status, by simp [statusOf, hfind], by simpa using h, hrs⟩
          cases hsx : o.saveFailedExn with
          | some e3 =>
              rw [hsx] at hp
              dsimp only at hp
              rw [save_exn] at hp
              dsimp only at hp
              exact base p hp
          | none =>
              rw [hsx] at hp
              dsimp only at hp
              rw [save_none_pair] at hp
              dsimp only at hp
              have hstf : statusOf (updateIncidentStatus db id0
                  IncidentStatus.failed none).1 id0 = some IncidentStatus.failed := by
                rw [hst1]; simp
              obtain ⟨old3, hold3, hold3st⟩ :
                  ∃ u, getIncident (updateIncidentStatus db id0
                      IncidentStatus.failed none).1 id0 = some u ∧
                    u.status = IncidentStatus.failed := by
                simpa [statusOf, Option.map_eq_some'] using hstf
              have hf3 : getIncident (updateIncidentStatus db id0 IncidentStatus.failed none).1
                  ({ { r with status := IncidentStatus.failed, updated_at := db.now } with
                      resolution := some ("Processing failed: " ++ e) } : IncidentModel).id
                    = some old3 := by
                simpa [hrid] using hold3
              rw [save_found_trace _ _ old3 hf3] at hp
              rw [if_pos (by simp [hold3st])] at hp
              exact base p hp

theorem processExcept_sim (db dbA : Database) (id0 : Nat) (e eA : String) (o oA : ProcOracle)
    (hR : ∀ j, statusOf db j = statusOf dbA j)
    (h1 : o.updateFailedExn = oA.updateFailedExn) (h2 : o.saveFailedExn = oA.saveFailedExn) :
    ∀ j, statusOf (processExcept db id0 e o).1 j = statusOf (processExcept dbA id0 eA oA).1 j := by
  intro j
  cases hux : o.updateFailedExn with
  | some e2 =>
      have huxA : oA.updateFailedExn = some e2 := by rw [← h1]; exact hux
      simp only [processExcept, hux, huxA, update_exn]
      exact hR j
  | none =>
      have huxA : oA.updateFailedExn = none := by rw [← h1]; exact hux
      cases hfind : getIncident db id0 with
      | none =>
          have hnA : statusOf dbA id0 = none := by
            rw [← hR id0]; simp [statusOf, hfind]
          have hfindA : getIncident dbA id0 = none := by
            simpa [statusOf, Option.map_eq_none'] using hnA
          simp only [processExcept, hux, huxA,
            update_notfound db id0 IncidentStatus.failed hfind,
            update_notfound dbA id0 IncidentStatus.failed hfindA]
          exact hR j
      | some r =>
          have hcross : statusOf dbA id0 = some r.status := by
            rw [← hR id0]; simp [statusOf, hfind]
          obtain ⟨rA, hfindA, hrAst⟩ :
              ∃ rA, getIncident dbA id0 = some rA ∧ rA.status = r.status := by
            simpa [statusOf, Option.map_eq_some'] using hcross
          have hrid : r.id = id0 := ds_beq_of_find _ _ _ (by simpa [getIncident] using hfind)
          have hridA : rA.id = id0 :=
            ds_beq_of_find _ _ _ (by simpa [getIncident] using hfindA)
          simp only [processExcept, hux, huxA]
          rw [update_found_pair db id0 IncidentStatus.failed r hfind,
            update_found_pair dbA id0 IncidentStatus.failed rA hfindA]
          have hst1 := update_found_statusOf db id0 IncidentStatus.failed r hfind
          have hst1A := update_found_statusOf dbA id0 IncidentStatus.failed rA hfindA
          have hR1 : ∀ k, statusOf (updateIncidentStatus db id0
                IncidentStatus.failed none).1 k
              = statusOf (updateIncidentStatus dbA id0 IncidentStatus.failed none).1 k := by
            intro k
            rw [hst1, hst1A]
            by_cases hk : k = id0
            · simp [hk]
            · simp [hk, hR k]
          cases hsx : o.saveFailedExn with
          | some e3 =>
              have hsxA : oA.saveFailedExn = some e3 := by rw [← h2]; exact hsx
              rw [hsxA]
              dsimp only
              rw [save_exn, save_exn]
              dsimp only
              exact hR1 j
          | none =>
              have hsxA : oA.saveFailedExn = none := by rw [← h2]; exact hsx
              rw [hsxA]
              dsimp only
              rw [save_none_pair]
              dsimp only
              conv_rhs => rw [save_none_pair]
              dsimp only
              have hstf : statusOf (updateIncidentStatus db id0
                  IncidentStatus.failed none).1 id0 = some IncidentStatus.failed := by
                rw [hst1]; simp
              have hstfA : statusOf (updateIncidentStatus dbA id0
                  IncidentStatus.failed none).1 id0 = some IncidentStatus.failed := by
                rw [hst1A]; simp
              obtain ⟨old3, hold3, _⟩ :
                  ∃ u, getIncident (updateIncidentStatus db id0
                      IncidentStatus.failed none).1 id0 = some u ∧
                    u.status = IncidentStatus.failed := by
                simpa [statusOf, Option.map_eq_some'] using hstf
              obtain ⟨old3A, hold3A, _⟩ :
                  ∃ u, getIncident (updateIncidentStatus dbA id0
                      IncidentStatus.failed none).1 id0 = some u ∧
                    u.status = IncidentStatus.failed := by
                simpa [statusOf, Option.map_eq_some'] using hstfA
              have hf3 : getIncident (updateIncidentStatus db id0 IncidentStatus.failed none).1
                  ({ { r with status := IncidentStatus.failed, updated_at := db.now } with
                      resolution := some ("Processing failed: " ++ e) } : IncidentModel).id
                    = some old3 := by
                simpa [hrid] using hold3
              have hf3A : getIncident (updateIncidentStatus dbA id0
                    IncidentStatus.failed none).1
                  ({ { rA with status := IncidentStatus.failed, updated_at := dbA.now } with
                      resolution := some ("Processing failed: " ++ eA) } : IncidentModel).id
                    = some old3A := by
                simpa [hridA] using hold3A
              rw [save_found_statusOf _ _ old3 hf3 j, save_found_statusOf _ _ old3A hf3A j]
              by_cases hj : j = id0
              · simp [hj, hrid, hridA]
              · simp [hj, hrid, hridA, hR1 j]

/-! ### Characterisation of the main pipeline body -/

theorem processTry_true_eq (db : Database) (dbi : IncidentModel) (o : ProcOracle)
    (h : getIncident db dbi.id = some dbi) (h2 : o.updateAnalyzingExn = none) :
    ∃ db3 inc3,
      inc3.id = dbi.id ∧ inc3.status = IncidentStatus.analyzing ∧
      statusOf db3 dbi.id = some IncidentStatus.analyzing ∧
      (∀ j, j ≠ dbi.id → statusOf db3 j = statusOf db j) ∧
      (∀ p ∈ db3.trace, p ∈ db.trace ∨ p = (dbi.status, IncidentStatus.analyzing)) ∧
      processTry db dbi true o = (attemptAutoRepair db3 inc3 o.repair, Except.ok inc3) := by
  have hst1 := update_found_statusOf db dbi.id IncidentStatus.analyzing dbi h
  have htr1 := update_found_trace db dbi.id IncidentStatus.analyzing dbi h
  obtain ⟨hidA, hstA, hpresA, htrA, _, _⟩ :=
    analysisStep_spec (updateIncidentStatus db dbi.id IncidentStatus.analyzing none).1
      { dbi with status := IncidentStatus.analyzing, updated_at := db.now }
      o.analysisResult o.saveAnalysisExn (by rw [hst1]; simp)
  rcases has : analysisStep (updateIncidentStatus db dbi.id IncidentStatus.analyzing none).1
      { dbi with status := IncidentStatus.analyzing, updated_at := db.now }
      o.analysisResult o.saveAnalysisExn with ⟨db2, inc2⟩
  rw [has] at hidA hstA hpresA htrA
  simp at hidA hstA
  simp only at hpresA htrA
  obtain ⟨hidT, hstT, hpresT, htrT, _, _⟩ :=
    triggerStep_spec db2 inc2 o.triggerResult o.saveTriggerExn
      (by rw [hpresA inc2.id, hst1, hidA, hstA]; simp)
  rcases hat : triggerStep db2 inc2 o.triggerResult o.saveTriggerExn with ⟨db3, inc3⟩
  rw [hat] at hidT hstT hpresT htrT
  simp only at hidT hstT hpresT htrT
  refine ⟨db3, inc3, ?_, ?_, ?_, ?_, ?_, ?_⟩
  · rw [hidT, hidA]
  · rw [hstT, hstA]
  · rw [hpresT, hpresA, hst1]; simp
  · intro j hj
    rw [hpresT, hpresA, hst1]; simp [hj]
  · intro p hp
    rw [htrT, htrA, htr1] at hp
    by_cases hds : dbi.status = IncidentStatus.analyzing
    · rw [if_pos hds] at hp; exact Or.inl hp
    · rw [if_neg hds] at hp
      rcases List.mem_append.mp hp with hq | hq
      · exact Or.inl hq
      · exact Or.inr (by simpa using hq)
  · simp only [processTry]
    rw [h2, update_found_pair db dbi.id IncidentStatus.analyzing dbi h]
    dsimp only
    rw [has]
    dsimp only
    rw [hat]
    simp

theorem processTry_false_ok (db : Database) (dbi : IncidentModel) (o : ProcOracle)
    (h : getIncident db dbi.id = some dbi) (h2 : o.updateAnalyzingExn = none)
    (h3 : o.updatePendingExn = none) :
    ∃ db4 inc4, processTry db dbi false o = (db4, Except.ok inc4) ∧
      inc4.id = dbi.id ∧ inc4.status = IncidentStatus.pending ∧
      statusOf db4 dbi.id = some IncidentStatus.pending ∧
      (∀ j, j ≠ dbi.id → statusOf db4 j = statusOf db j) ∧
      (∀ p ∈ db4.trace, p ∈ db.trace ∨ p = (dbi.status, IncidentStatus.analyzing) ∨
        p = (IncidentStatus.analyzing, IncidentStatus.pending)) := by
  have hst1 := update_found_statusOf db dbi.id IncidentStatus.analyzing dbi h
  have htr1 := update_found_trace db dbi.id IncidentStatus.analyzing dbi h
  obtain ⟨hidA, hstA, hpresA, htrA, _, _⟩ :=
    analysisStep_spec (updateIncidentStatus db dbi.id IncidentStatus.analyzing none).1
      { dbi with status := IncidentStatus.analyzing, updated_at := db.now }
      o.analysisResult o.saveAnalysisExn (by rw [hst1]; simp)
  rcases has : analysisStep (updateIncidentStatus db dbi.id IncidentStatus.analyzing none).1
      { dbi with status := IncidentStatus.analyzing, updated_at := db.now }
      o.analysisResult o.saveAnalysisExn with ⟨db2, inc2⟩
  rw [has] at hidA hstA hpresA htrA
  simp at hidA hstA
  simp only at hpresA htrA
  obtain ⟨hidT, hstT, hpresT, htrT, _, _⟩ :=
    triggerStep_spec db2 inc2 o.triggerResult o.saveTriggerExn
      (by rw [hpresA inc2.id, hst1, hidA, hstA]; simp)
  rcases hat : triggerStep db2 inc2 o.triggerResult o.saveTriggerExn with ⟨db3, inc3⟩
  rw [hat] at hidT hstT hpresT htrT
  simp only at hidT hstT hpresT htrT
  have hst3 : statusOf db3 inc3.id = some IncidentStatus.analyzing := by
    rw [hpresT, hpresA, hst1, hidT, hidA]; simp
  obtain ⟨rp, hrp, hrpst⟩ :
      ∃ u, getIncident db3 inc3.id = some u ∧ u.status = IncidentStatus.analyzing := by
    simpa [statusOf, Option.map_eq_some'] using hst3
  have hrpid : rp.id = inc3.id := ds_beq_of_find _ _ _ (by simpa [getIncident] using hrp)
  have hst4 := update_found_statusOf db3 inc3.id IncidentStatus.pending rp hrp
  have htr4 := update_found_trace db3 inc3.id IncidentStatus.pending rp hrp
  refine ⟨(updateIncidentStatus db3 inc3.id IncidentStatus.pending none).1,
    { rp with status := IncidentStatus.pending, updated_at := db3.now }, ?_, ?_, rfl, ?_, ?_, ?_⟩
  · simp only [processTry]
    rw [h2, update_found_pair db dbi.id IncidentStatus.analyzing dbi h]
    dsimp only
    rw [has]
    dsimp only
    rw [hat]
    dsimp only
    rw [h3, update_found_pair db3 inc3.id IncidentStatus.pending rp hrp]
    simp
  · simp [hrpid, hidT, hidA]
  · rw [hst4]
    simp [hidT, hidA]
  · intro j hj
    rw [hst4, hpresT, hpresA, hst1]
    have hj3 : ¬ j = inc3.id := by rw [hidT, hidA]; exact hj
    simp [hj, hj3]
  · intro p hp
    rw [htr4] at hp
    rw [if_neg (by rw [hrpst]; simp)] at hp
    rcases List.mem_append.mp hp with hq | hq
    · rw [htrT, htrA, htr1] at hq
      by_cases hds : dbi.status = IncidentStatus.analyzing
      · rw [if_pos hds] at hq; exact Or.inl hq
      · rw [if_neg hds] at hq
        rcases List.mem_append.mp hq with hq2 | hq2
        · exact Or.inl hq2
        · exact Or.inr (Or.inl (by simpa using hq2))
    · refine Or.inr (Or.inr ?_)
      rw [hrpst] at hq
      simpa using hq

theorem processTry_false_exn (db : Database) (dbi : IncidentModel) (o : ProcOracle) (e2 : String)
    (h : getIncident db dbi.id = some dbi) (h2 : o.updateAnalyzingExn = none)
    (h3 : o.updatePendingExn = some e2) :
    ∃ db3, processTry db dbi false o = (db3, Except.error e2) ∧
      statusOf db3 dbi.id = some IncidentStatus.analyzing ∧
      (∀ j, j ≠ dbi.id → statusOf db3 j = statusOf db j) ∧
      (∀ p ∈ db3.trace, p ∈ db.trace ∨ p = (dbi.status, IncidentStatus.analyzing)) := by
  have hst1 := update_found_statusOf db dbi.id IncidentStatus.analyzing dbi h
  have htr1 := update_found_trace db dbi.id IncidentStatus.analyzing dbi h
  obtain ⟨hidA, hstA, hpresA, htrA, _, _⟩ :=
    analysisStep_spec (updateIncidentStatus db dbi.id IncidentStatus.analyzing none).1
      { dbi with status := IncidentStatus.analyzing, updated_at := db.now }
      o.analysisResult o.saveAnalysisExn (by rw [hst1]; simp)
  rcases has : analysisStep (updateIncidentStatus db dbi.id IncidentStatus.analyzing none).1
      { dbi with status := IncidentStatus.analyzing, updated_at := db.now }
      o.analysisResult o.saveAnalysisExn with ⟨db2, inc2⟩
  rw [has] at hidA hstA hpresA htrA
  simp at hidA hstA
  simp only at hpresA htrA
  obtain ⟨hidT, hstT, hpresT, htrT, _, _⟩ :=
    triggerStep_spec db2 inc2 o.triggerResult o.saveTriggerExn
      (by rw [hpresA inc2.id, hst1, hidA, hstA]; simp)
  rcases hat : triggerStep db2 inc2 o.triggerResult o.saveTriggerExn with ⟨db3, inc3⟩
  rw [hat] at hidT hstT hpresT htrT
  simp only at hidT hstT hpresT htrT
  refine ⟨db3, ?_, ?_, ?_, ?_⟩
  · simp only [processTry]
    rw [h2, update_found_pair db dbi.id IncidentStatus.analyzing dbi h]
    dsimp only
    rw [has]
    dsimp only
    rw [hat]
    dsimp only
    rw [h3, update_exn]
    simp
  · rw [hpresT, hpresA, hst1]; simp
  · intro j hj
    rw [hpresT, hpresA, hst1]; simp [hj]
  · intro p hp
    rw [htrT, htrA, htr1] at hp
    by_cases hds : dbi.status = IncidentStatus.analyzing
    · rw [if_pos hds] at hp; exact Or.inl hp
    · rw [if_neg hds] at hp
      rcases List.mem_append.mp hp with hq | hq
      · exact Or.inl hq
      · exact Or.inr (by simpa using hq)

theorem processTry_full (db : Database) (dbi : IncidentModel) (flag : Bool) (o : ProcOracle)
    (h : getIncident db dbi.id = some dbi) (hp0 : dbi.status = IncidentStatus.pending) :
    (∀ p ∈ (processTry db dbi flag o).1.trace,
       p ∈ db.trace ∨ allowedEdge p.1 p.2 = true) ∧
    (∀ e, (processTry db dbi flag o).2 = Except.error e →
       statusOf (processTry db dbi flag o).1 dbi.id = some IncidentStatus.pending ∨
       statusOf (processTry db dbi flag o).1 dbi.id = some IncidentStatus.analyzing) := by
  cases hux : o.updateAnalyzingExn with
  | some e2 =>
      have heq : processTry db dbi flag o = (db, Except.error e2) := by
        simp [processTry, hux, update_exn]
      rw [heq]
      refine ⟨fun p hp => Or.inl hp, fun e _ => Or.inl ?_⟩
      simp [statusOf, h, hp0]
  | none =>
      cases flag with
      | true =>
          obtain ⟨db3, inc3, hid3, hst3i, hst3, hpres3, htr3, heq⟩ :=
            processTry_true_eq db dbi o h hux
          rw [heq]
          constructor
          · intro p hp
            rcases AR_trace db3 inc3 o.repair p hp with hq | hq | hq
            · rcases htr3 p hq with hq2 | hq2
              · exact Or.inl hq2
              · right; rw [hq2, hp0]; rfl
            · obtain ⟨s0, hs0, hps⟩ := hq
              rw [hid3, hst3] at hs0
              right
              rw [hps]
              cases hs0
              rfl
            · obtain ⟨rr, _, hps⟩ := hq
              right
              rw [hps]
              by_cases hsucc : rr.success = true
              · rw [if_pos hsucc]; rfl
              · rw [if_neg hsucc]; rfl
          · intro e he
            simp at he
      | false =>
          cases hup : o.updatePendingExn with
          | none =>
              obtain ⟨db4, inc4, heq, _, _, hst4, _, htr4⟩ :=
                processTry_false_ok db dbi o h hux hup
              rw [heq]
              constructor
              · intro p hp
                rcases htr4 p hp with hq | hq | hq
                · exact Or.inl hq
                · right; rw [hq, hp0]; rfl
                · right; rw [hq]; rfl
              · intro e he; simp at he
          | some e2 =>
              obtain ⟨db3, heq, hst3, _, htr3⟩ :=
                processTry_false_exn db dbi o e2 h hux hup
              rw [heq]
              constructor
              · intro p hp
                rcases htr3 p hp with hq | hq
                · exact Or.inl hq
                · right; rw [hq, hp0]; rfl
              · intro e he
                exact Or.inr hst3

theorem processTry_sim (db : Database) (dbi : IncidentModel) (flag : Bool) (o oA : ProcOracle)
    (h : getIncident db dbi.id = some dbi)
    (h2 : o.updateAnalyzingExn = oA.updateAnalyzingExn)
    (h3 : o.updatePendingExn = oA.updatePendingExn)
    (h6 : o.repair.updateRepairingExn = oA.repair.updateRepairingExn)
    (h7 : o.repair.execResult = oA.repair.execResult)
    (h8 : o.repair.saveFinalExn = oA.repair.saveFinalExn) :
    (∀ j, statusOf (processTry db dbi flag o).1 j = statusOf (processTry db dbi flag oA).1 j) ∧
    (∀ e, (processTry db dbi flag o).2 = Except.error e →
       ∃ eA, (processTry db dbi flag oA).2 = Except.error eA) ∧
    (∀ u, (processTry db dbi flag o).2 = Except.ok u →
       ∃ uA, (processTry db dbi flag oA).2 = Except.ok uA) := by
  cases hux : o.updateAnalyzingExn with
  | some e2 =>
      have huxA : oA.updateAnalyzingExn = some e2 := by rw [← h2]; exact hux
      have heq : processTry db dbi flag o = (db, Except.error e2) := by
        simp [processTry, hux, update_exn]
      have heqA : processTry db dbi flag oA = (db, Except.error e2) := by
        simp [processTry, huxA, update_exn]
      rw [heq, heqA]
      exact ⟨fun j => rfl, fun e _ => ⟨e2, rfl⟩, fun u hu => by simp at hu⟩
  | none =>
      have huxA : oA.updateAnalyzingExn = none := by rw [← h2]; exact hux
      cases flag with
      | true =>
          obtain ⟨db3, inc3, hid3, _, hst3, hpres3, _, heq⟩ :=
            processTry_true_eq db dbi o h hux
          obtain ⟨db3A, inc3A, hid3A, _, hst3A, hpres3A, _, heqA⟩ :=
            processTry_true_eq db dbi oA h huxA
          rw [heq, heqA]
          have hR3 : ∀ j, statusOf db3 j = statusOf db3A j := by
            intro j
            by_cases hj : j = dbi.id
            · rw [hj, hst3, hst3A]
            · rw [hpres3 j hj, hpres3A j hj]
          refine ⟨?_, fun e he => by simp at he, fun u _ => ⟨inc3A, rfl⟩⟩
          exact AR_sim db3 db3A inc3 inc3A o.repair oA.repair hR3
            (by rw [hid3, hid3A]) h6 h7 h8
      | false =>
          cases hup : o.updatePendingExn with
          | none =>
              have hupA : oA.updatePendingExn = none := by rw [← h3]; exact hup
              obtain ⟨db4, inc4, heq, _, _, hst4, hpres4, _⟩ :=
                processTry_false_ok db dbi o h hux hup
              obtain ⟨db4A, inc4A, heqA, _, _, hst4A, hpres4A, _⟩ :=
                processTry_false_ok db dbi oA h huxA hupA
              rw [heq, heqA]
              refine ⟨?_, fun e he => by simp at he, fun u _ => ⟨inc4A, rfl⟩⟩
              intro j
              by_cases hj : j = dbi.id
              · rw [hj, hst4, hst4A]
              · rw [hpres4 j hj, hpres4A j hj]
          | some e2 =>
              have hupA : oA.updatePendingExn = some e2 := by rw [← h3]; exact hup
              obtain ⟨db3, heq, hst3, hpres3, _⟩ :=
                processTry_false_exn db dbi o e2 h hux hup
              obtain ⟨db3A, heqA, hst3A, hpres3A, _⟩ :=
                processTry_false_exn db dbi oA e2 h huxA hupA
              rw [heq, heqA]
              refine ⟨?_, fun e _ => ⟨e2, rfl⟩, fun u hu => by simp at hu⟩
              intro j
              by_cases hj : j = dbi.id
              · rw [hj, hst3, hst3A]
              · rw [hpres3 j hj, hpres3A j hj]

theorem create_pair (db : Database) (req : IncidentRequest) :
    createIncidentRecord db req none
      = ((createIncidentRecord db req none).1, Except.ok (freshIncident db req)) := by
  rw [create_eq]

theorem processIncident_sim (db : Database) (req : IncidentRequest) (flag : Bool)
    (o oA : ProcOracle) (hWF : db.WF)
    (h1 : o.createExn = oA.createExn)
    (h2 : o.updateAnalyzingExn = oA.updateAnalyzingExn)
    (h3 : o.updatePendingExn = oA.updatePendingExn)
    (h4 : o.updateFailedExn = oA.updateFailedExn)
    (h5 : o.saveFailedExn = oA.saveFailedExn)
    (h6 : o.repair.updateRepairingExn = oA.repair.updateRepairingExn)
    (h7 : o.repair.execResult = oA.repair.execResult)
    (h8 : o.repair.saveFinalExn = oA.repair.saveFinalExn) :
    ∀ j, statusOf (processIncident db req flag o).1 j
       = statusOf (processIncident db req flag oA).1 j := by
  intro j
  cases hc : o.createExn with
  | some e =>
      have hcA : oA.createExn = some e := by rw [← h1]; exact hc
      simp [processIncident, hc, hcA, create_exn]
  | none =>
      have hcA : oA.createExn = none := by rw [← h1]; exact hc
      have hfr : getIncident (createIncidentRecord db req none).1
          (freshIncident db req).id = some (freshIncident db req) :=
        getIncident_create_self db req hWF
      obtain ⟨hsim, herr, hok⟩ :=
        processTry_sim (createIncidentRecord db req none).1 (freshIncident db req) flag o oA
          hfr h2 h3 h6 h7 h8
      simp only [processIncident]
      rw [hc, hcA, create_pair]
      dsimp only
      rcases hpt : processTry (createIncidentRecord db req none).1
          (freshIncident db req) flag o with ⟨db1, r1⟩
      rcases hptA : processTry (createIncidentRecord db req none).1
          (freshIncident db req) flag oA with ⟨db1A, r1A⟩
      rw [hpt, hptA] at hsim herr hok
      simp only at hsim herr hok
      cases r1 with
      | ok u =>
          obtain ⟨uA, huA⟩ := hok u rfl
          subst huA
          dsimp only
          exact hsim j
      | error e =>
          obtain ⟨eA, heA⟩ := herr e rfl
          subst heA
          dsimp only
          exact processExcept_sim db1 db1A (freshIncident db req).id e eA o oA
            hsim h4 h5 j

/-! ### Executor and assembled-pipeline helper lemmas -/

theorem executeRepair_ok (oc : ClineOracle) :
    ∃ rr, executeRepair oc = Except.ok rr ∧ rr.success = true := by
  obtain ⟨tf, run⟩ := oc
  cases tf with
  | error e => cases e <;> exact ⟨_, rfl, rfl⟩
  | ok path =>
      cases run with
      | completed rc out err =>
          by_cases hrc : rc ≠ 0
          · exact ⟨{ success := true
                     resolution := some "Simulated repair complete (Cline fallback)"
                     error := none },
              by simp [executeRepair, runClineCommand, hrc], rfl⟩
          · exact ⟨{ success := true, resolution := some (out.take 500), error := none },
              by simp [executeRepair, runClineCommand, hrc], rfl⟩
      | timeout => exact ⟨_, rfl, rfl⟩
      | spawnFileNotFound => exact ⟨_, rfl, rfl⟩
      | otherError m => exact ⟨_, rfl, rfl⟩

theorem processIncident_returns_ok (db : Database) (req : IncidentRequest) (flag : Bool)
    (o : ProcOracle) (hWF : db.WF) (h1 : o.createExn = none)
    (h2 : o.updateAnalyzingExn = none) (h3 : o.updatePendingExn = none) :
    ∃ resp, (processIncident db req flag o).2 = Except.ok resp := by
  have hfr := getIncident_create_self db req hWF
  cases flag with
  | true =>
      obtain ⟨db3, inc3, _, _, _, _, _, heq⟩ :=
        processTry_true_eq (createIncidentRecord db req none).1 (freshIncident db req) o hfr h2
      refine ⟨toResponse inc3, ?_⟩
      simp only [processIncident]
      rw [h1, create_pair]
      dsimp only
      rw [heq]
  | false =>
      obtain ⟨db4, inc4, heq, _, _, _, _, _⟩ :=
        processTry_false_ok (createIncidentRecord db req none).1 (freshIncident db req) o
          hfr h2 h3
      refine ⟨toResponse inc4, ?_⟩
      simp only [processIncident]
      rw [h1, create_pair]
      dsimp only
      rw [heq]

theorem process_exec_char (db : Database) (req : IncidentRequest) (o : ProcOracle)
    (rr : RepairResult) (hWF : db.WF) (h1 : o.createExn = none)
    (h2 : o.updateAnalyzingExn = none) (h3 : o.repair.updateRepairingExn = none)
    (h4 : o.repair.execResult = Except.ok rr) (h5 : o.repair.saveFinalExn = none) :
    ∃ u resp, (processIncident db req true o).2 = Except.ok resp ∧
      getIncident (processIncident db req true o).1 db.nextId = some u ∧
      u.status = (if rr.success then IncidentStatus.resolved else IncidentStatus.failed) ∧
      u.resolution = some (if rr.success then rr.resolution.getD "Auto-repaired successfully"
                           else "Auto-repair failed: " ++ rr.error.getD "None") := by
  have hfr := getIncident_create_self db req hWF
  obtain ⟨db3, inc3, hid3, _, hst3, _, _, heq⟩ :=
    processTry_true_eq (createIncidentRecord db req none).1 (freshIncident db req) o hfr h2
  have heqP : processIncident db req true o
      = (attemptAutoRepair db3 inc3 o.repair, Except.ok (toResponse inc3)) := by
    simp only [processIncident]
    rw [h1, create_pair]
    dsimp only
    rw [heq]
  rw [heqP]
  have hst3i : statusOf db3 inc3.id = some IncidentStatus.analyzing := by
    rw [hid3]; exact hst3
  obtain ⟨r3, hr3, _⟩ :
      ∃ u, getIncident db3 inc3.id = some u ∧ u.status = IncidentStatus.analyzing := by
    simpa [statusOf, Option.map_eq_some'] using hst3i
  obtain ⟨u, hu, hust, hures⟩ := AR_exec_ok db3 inc3 o.repair rr r3 hr3 h3 h4 h5
  have hidn : inc3.id = db.nextId := by rw [hid3]; rfl
  refine ⟨u, toResponse inc3, rfl, ?_, hust, hures⟩
  rw [← hidn]
  exact hu

/-! ### Concrete exemplars used by witnesses and counterexamples -/

def emptyDb : Database := { incidents := [], nextId := 0, now := 0, trace := [] }

def exReq : IncidentRequest :=
  { title := "API endpoint returning 500 errors"
    description := "The users endpoint is throwing server errors"
    severity := IncidentSeverity.high
    source := "monitoring-system"
    metadata := none }

def okRepairOracle : RepairOracle :=
  { updateRepairingExn := none
    suggestResult := Except.ok none
    saveSuggestExn := none
    execResult := Except.ok { success := true, resolution := some "fixed", error := none }
    saveFinalExn := none }

def okOracle : ProcOracle :=
  { createExn := none
    updateAnalyzingExn := none
    analysisResult := Except.ok (some "analysis text")
    saveAnalysisExn := none
    triggerResult := Except.ok (some "exec-1")
    saveTriggerExn := none
    updatePendingExn := none
    repair := okRepairOracle
    updateFailedExn := none
    saveFailedExn := none }

def exIncPending : IncidentModel :=
  { id := 0
    title := "stuck deploy"
    description := "deploy hangs"
    severity := IncidentSeverity.medium
    status := IncidentStatus.pending
    source := "ci"
    resolution := none
    kestra_execution_id := none
    incident_metadata := none
    created_at := 0
    updated_at := 0 }

def dbPending : Database :=
  { incidents := [exIncPending], nextId := 1, now := 1, trace := [] }

def exIncResolved : IncidentModel :=
  { id := 0
    title := "old incident"
    description := "already fixed"
    severity := IncidentSeverity.low
    status := IncidentStatus.resolved
    source := "monitor"
    resolution := some "done"
    kestra_execution_id := none
    incident_metadata := none
    created_at := 0
    updated_at := 0 }

def dbResolved : Database :=
  { incidents := [exIncResolved], nextId := 1, now := 1, trace := [] }

def simFallbackResult : RepairResult :=
  { success := true
    resolution := some "Simulated repair complete (Cline fallback)"
    error := none }

def clineTimeoutOracle : ClineOracle :=
  { taskFile := Except.ok "task-path", run := ClineOutcome.timeout }

/-! ### The claims -/

/-- C1: with auto-repair disabled and every repository operation
succeeding, `process_incident` returns a PENDING response and the
stored record's final status is PENDING, regardless of the Analysis
Advisor and Workflow Trigger outcomes (which remain universally
quantified in the oracle). -/
theorem claim1_disabled_final_pending (db : Database) (req : IncidentRequest)
    (o : ProcOracle) (hWF : db.WF) (h1 : o.createExn = none)
    (h2 : o.updateAnalyzingExn = none) (h3 : o.updatePendingExn = none) :
    ∃ resp, (processIncident db req false o).2 = Except.ok resp ∧
      resp.status = IncidentStatus.pending ∧
      statusOf (processIncident db req false o).1 resp.id = some IncidentStatus.pending := by
  have hfr := getIncident_create_self db req hWF
  obtain ⟨db4, inc4, heq, hid4, hst4i, hst4, _, _⟩ :=
    processTry_false_ok (createIncidentRecord db req none).1 (freshIncident db req) o
      hfr h2 h3
  have heqP : processIncident db req false o = (db4, Except.ok (toResponse inc4)) := by
    simp only [processIncident]
    rw [h1, create_pair]
    dsimp only
    rw [heq]
  rw [heqP]
  refine ⟨toResponse inc4, rfl, ?_, ?_⟩
  · simp [toResponse, hst4i]
  · show statusOf db4 (toResponse inc4).id = some IncidentStatus.pending
    simp only [toResponse]
    rw [hid4]
    exact hst4

theorem claim1_witness :
    ∃ resp, (processIncident emptyDb exReq false okOracle).2 = Except.ok resp ∧
      resp.status = IncidentStatus.pending ∧
      statusOf (processIncident emptyDb exReq false okOracle).1 resp.id
        = some IncidentStatus.pending :=
  claim1_disabled_final_pending emptyDb exReq okOracle (by decide) rfl rfl rfl

/-- C2: with auto-repair enabled, repository operations succeeding, and
the Repair Executor reporting success with a non-empty resolution text
`t`, the stored record ends RESOLVED with `resolution = some t`. -/
theorem claim2_exec_success_resolved (db : Database) (req : IncidentRequest)
    (o : ProcOracle) (rr : RepairResult) (t : String) (hWF : db.WF)
    (h1 : o.createExn = none) (h2 : o.updateAnalyzingExn = none)
    (h3 : o.repair.updateRepairingExn = none) (h4 : o.repair.execResult = Except.ok rr)
    (h5 : o.repair.saveFinalExn = none) (h6 : rr.success = true)
    (h7 : rr.resolution = some t) (h8 : t ≠ "") :
    ∃ u, getIncident (processIncident db req true o).1 db.nextId = some u ∧
      u.status = IncidentStatus.resolved ∧ u.resolution = some t := by
  have hfr := getIncident_create_self db req hWF
  obtain ⟨db3, inc3, hid3, _, hst3, _, _, heq⟩ :=
    processTry_true_eq (createIncidentRecord db req none).1 (freshIncident db req) o hfr h2
  have heqP : processIncident db req true o
      = (attemptAutoRepair db3 inc3 o.repair, Except.ok (toResponse inc3)) := by
    simp only [processIncident]
    rw [h1, create_pair]
    dsimp only
    rw [heq]
  rw [heqP]
  have hst3i : statusOf db3 inc3.id = some IncidentStatus.analyzing := by
    rw [hid3]; exact hst3
  obtain ⟨r3, hr3, _⟩ :
      ∃ u, getIncident db3 inc3.id = some u ∧ u.status = IncidentStatus.analyzing := by
    simpa [statusOf, Option.map_eq_some'] using hst3i
  obtain ⟨u, hu, hust, hures⟩ := AR_exec_ok db3 inc3 o.repair rr r3 hr3 h3 h4 h5
  have hidn : inc3.id = db.nextId := by
    rw [hid3]; rfl
  refine ⟨u, ?_, ?_, ?_⟩
  · rw [← hidn]; exact hu
  · rw [hust, if_pos h6]
  · rw [hures, if_pos h6, h7]
    rfl

theorem claim2_witness :
    ∃ u, getIncident (processIncident emptyDb exReq true okOracle).1 emptyDb.nextId
        = some u ∧
      u.status = IncidentStatus.resolved ∧ u.resolution = some "fixed" :=
  claim2_exec_success_resolved emptyDb exReq okOracle
    { success := true, resolution := some "fixed", error := none } "fixed"
    (by decide) rfl rfl rfl rfl rfl rfl rfl (by decide)

/-- C3: whenever a repair attempt reaches the Repair Executor (the
move to REPAIRING succeeded) and the executor reports failure, the
stored record ends FAILED with a non-empty error-describing
resolution text. -/
theorem claim3_exec_failure_failed (db : Database) (inc r : IncidentModel)
    (o : RepairOracle) (rr : RepairResult) (hr : getIncident db inc.id = some r)
    (h1 : o.updateRepairingExn = none) (h2 : o.execResult = Except.ok rr)
    (h3 : o.saveFinalExn = none) (h4 : rr.success = false) :
    ∃ u, getIncident (attemptAutoRepair db inc o) inc.id = some u ∧
      u.status = IncidentStatus.failed ∧
      ∃ msg, u.resolution = some msg ∧ msg ≠ "" := by
  obtain ⟨u, hu, hust, hures⟩ := AR_exec_ok db inc o rr r hr h1 h2 h3
  have hns : rr.success ≠ true := by rw [h4]; simp
  refine ⟨u, hu, ?_, ?_⟩
  · rw [hust, if_neg hns]
  · refine ⟨"Auto-repair failed: " ++ rr.error.getD "None", ?_, ?_⟩
    · rw [hures, if_neg hns]
    · simp [String.ext_iff, String.data_append]

theorem claim3_witness :
    ∃ u, getIncident
        (attemptAutoRepair dbPending exIncPending
          { okRepairOracle with
              execResult := Except.ok
                { success := false, resolution := none, error := some "boom" } })
        exIncPending.id = some u ∧
      u.status = IncidentStatus.failed ∧
      ∃ msg, u.resolution = some msg ∧ msg ≠ "" :=
  claim3_exec_failure_failed dbPending exIncPending exIncPending
    { okRepairOracle with
        execResult := Except.ok
          { success := false, resolution := none, error := some "boom" } }
    { success := false, resolution := none, error := some "boom" }
    (by decide) rfl rfl rfl rfl

/-- C6: if the repository `create` raises, `process_incident` re-raises
the same exception, the store is completely unchanged (in particular no
status mutation happened), and no record from this call is observable
via `get` (the id that would have been assigned resolves to nothing). -/
theorem claim6_create_raises_nothing_observable (db : Database) (req : IncidentRequest)
    (flag : Bool) (o : ProcOracle) (e : String) (hc : o.createExn = some e)
    (hWF : db.WF) :
    (processIncident db req flag o).1 = db ∧
    (processIncident db req flag o).2 = Except.error e ∧
    getIncident db db.nextId = none := by
  have heq : processIncident db req flag o = (db, Except.error e) := by
    simp [processIncident, hc, create_exn]
  refine ⟨by rw [heq], by rw [heq], ?_⟩
  simpa [getIncident] using ds_find_fresh db hWF

theorem claim6_witness :
    (processIncident dbPending exReq false { okOracle with createExn := some "db down" }).1
      = dbPending ∧
    (processIncident dbPending exReq false { okOracle with createExn := some "db down" }).2
      = Except.error "db down" ∧
    getIncident dbPending dbPending.nextId = none :=
  claim6_create_raises_nothing_observable dbPending exReq false
    { okOracle with createExn := some "db down" } "db down" rfl (by decide)

/-- C4 counterexample: the manual repair trigger accepts an *existing
RESOLVED* incident (it checks only existence, not PENDING/FAILED), and
doing so drives the stored status from the terminal state RESOLVED to
REPAIRING — an edge that the §4.1 state machine does not contain. -/
theorem claim4_counterexample :
    (triggerRepair dbResolved 0 okRepairOracle).2 = true ∧
    (IncidentStatus.resolved, IncidentStatus.repairing)
      ∈ (triggerRepair dbResolved 0 okRepairOracle).1.trace ∧
    allowedEdge IncidentStatus.resolved IncidentStatus.repairing = false := by decide

/-- C4 (amended): the automatic pipeline (`process_incident`) only ever
moves a stored status along §4.1 edges; the manual repair trigger,
however, is accepted for any *existing* incident regardless of its
status — its guard is exactly record existence — and it moves the
current status (terminal or not) directly to REPAIRING. -/
theorem claim4_amended_trace_and_trigger (db : Database) (hWF : db.WF) :
    (∀ (req : IncidentRequest) (flag : Bool) (o : ProcOracle),
       ∀ p ∈ (processIncident db req flag o).1.trace,
         p ∈ db.trace ∨ allowedEdge p.1 p.2 = true) ∧
    (∀ (incidentId : Nat) (o : RepairOracle),
       (triggerRepair db incidentId o).2 = (getIncident db incidentId).isSome) ∧
    (∀ (incidentId : Nat) (o : RepairOracle) (r : IncidentModel),
       getIncident db incidentId = some r → o.updateRepairingExn = none →
       r.status ≠ IncidentStatus.repairing →
       (r.status, IncidentStatus.repairing) ∈ (triggerRepair db incidentId o).1.trace) := by
  refine ⟨?_, ?_, ?_⟩
  · intro req flag o p hp
    cases hc : o.createExn with
    | some e =>
        simp only [processIncident, hc, create_exn] at hp
        exact Or.inl hp
    | none =>
        have hfr := getIncident_create_self db req hWF
        obtain ⟨htr, herr⟩ :=
          processTry_full (createIncidentRecord db req none).1 (freshIncident db req)
            flag o hfr rfl
        have htr0 : (createIncidentRecord db req none).1.trace = db.trace := by
          rw [create_eq]
        simp only [processIncident] at hp
        rw [hc, create_pair] at hp
        dsimp only at hp
        rcases hpt : processTry (createIncidentRecord db req none).1
            (freshIncident db req) flag o with ⟨db1, r1⟩
        rw [hpt] at hp htr herr
        simp only at hp htr herr
        cases r1 with
        | ok u =>
            dsimp only at hp
            rcases htr p hp with h | h
            · left; rwa [htr0] at h
            · exact Or.inr h
        | error e =>
            dsimp only at hp
            rcases processExcept_trace db1 (freshIncident db req).id e o p hp with h | h
            · rcases htr p h with h2 | h2
              · left; rwa [htr0] at h2
              · exact Or.inr h2
            · obtain ⟨s0, hs0, hps, _⟩ := h
              rcases herr e rfl with hpend | hana
              · rw [hpend] at hs0
                cases hs0
                right; rw [hps]; rfl
              · rw [hana] at hs0
                cases hs0
                right; rw [hps]; rfl
  · intro incidentId o
    cases hg : getIncident db incidentId with
    | none => simp [triggerRepair, hg]
    | some r =>
        have hg2 : db.incidents.find? (fun i => i.id == incidentId) = some r := by
          simpa [getIncident] using hg
        simp [triggerRepair, hg, hg2]
  · intro incidentId o r hg hux hne
    have hg2 : db.incidents.find? (fun i => i.id == incidentId) = some r := by
      simpa [getIncident] using hg
    have hrid : r.id = incidentId := ds_beq_of_find _ _ _ hg2
    have heq : triggerRepair db incidentId o = (attemptAutoRepair db r o, true) := by
      simp [triggerRepair, hg, hg2]
    rw [heq]
    have hfr : getIncident db r.id = some r := by rw [hrid]; exact hg
    rw [AR_found_eq db r r o hux hfr]
    have htr1 := update_found_trace db r.id IncidentStatus.repairing r hfr
    have hmem1 : (r.status, IncidentStatus.repairing) ∈
        (updateIncidentStatus db r.id IncidentStatus.repairing none).1.trace := by
      rw [htr1, if_neg hne]
      simp
    have hst1 := update_found_statusOf db r.id IncidentStatus.repairing r hfr
    obtain ⟨_, _, _, htr2, _, _⟩ :=
      suggestStep_spec (updateIncidentStatus db r.id IncidentStatus.repairing none).1
        { r with status := IncidentStatus.repairing, updated_at := db.now }
        o.suggestResult o.saveSuggestExn (by rw [hst1]; simp)
    rcases hss : suggestStep (updateIncidentStatus db r.id IncidentStatus.repairing none).1
        { r with status := IncidentStatus.repairing, updated_at := db.now }
        o.suggestResult o.saveSuggestExn with ⟨db2, inc2, sug⟩
    rw [hss] at htr2
    simp only at htr2
    have hmem2 : (r.status, IncidentStatus.repairing) ∈ db2.trace := by
      rw [htr2]; exact hmem1
    cases hex : o.execResult with
    | error e =>
        dsimp only
        exact hmem2
    | ok rr =>
        dsimp only
        exact save_trace_mono db2 _ o.saveFinalExn _ hmem2

theorem claim4_witness :
    (triggerRepair dbResolved 0 okRepairOracle).2 = (getIncident dbResolved 0).isSome :=
  (claim4_amended_trace_and_trigger dbResolved (by decide)).2.1 0 okRepairOracle

/-- C5: when the Repair Executor call raises, the exception is caught
inside the repair subroutine (which therefore writes no FAILED
transition and leaves the stored status at REPAIRING), and nothing
propagates to the caller: `process_incident` still returns normally. -/
theorem claim5_executor_raise_swallowed (db : Database) (inc r : IncidentModel)
    (o : RepairOracle) (e : String) (hr : getIncident db inc.id = some r)
    (h1 : o.updateRepairingExn = none) (h2 : o.execResult = Except.error e) :
    statusOf (attemptAutoRepair db inc o) inc.id = some IncidentStatus.repairing ∧
    (∀ p ∈ (attemptAutoRepair db inc o).trace, p ∈ db.trace ∨ p.2 ≠ IncidentStatus.failed) ∧
    (∀ (db2 : Database) (req : IncidentRequest) (o2 : ProcOracle), db2.WF →
      o2.createExn = none → o2.updateAnalyzingExn = none → o2.repair = o →
      ∃ resp, (processIncident db2 req true o2).2 = Except.ok resp) := by
  refine ⟨AR_exec_error db inc o e r hr h1 h2, ?_, ?_⟩
  · intro p hp
    rcases AR_trace db inc o p hp with h | h | h
    · exact Or.inl h
    · obtain ⟨s0, _, hps⟩ := h
      right; rw [hps]; simp
    · obtain ⟨rr, hrr, _⟩ := h
      rw [h2] at hrr
      cases hrr
  · intro db2 req o2 hWF2 hc hu _
    have hfr := getIncident_create_self db2 req hWF2
    obtain ⟨db3, inc3, _, _, _, _, _, heq⟩ :=
      processTry_true_eq (createIncidentRecord db2 req none).1 (freshIncident db2 req) o2
        hfr hu
    refine ⟨toResponse inc3, ?_⟩
    simp only [processIncident]
    rw [hc, create_pair]
    dsimp only
    rw [heq]

theorem claim5_witness :
    statusOf (attemptAutoRepair dbPending exIncPending
        { okRepairOracle with execResult := Except.error "executor crashed" })
      exIncPending.id = some IncidentStatus.repairing ∧
    (∀ p ∈ (attemptAutoRepair dbPending exIncPending
        { okRepairOracle with execResult := Except.error "executor crashed" }).trace,
      p ∈ dbPending.trace ∨ p.2 ≠ IncidentStatus.failed) ∧
    (∀ (db2 : Database) (req : IncidentRequest) (o2 : ProcOracle), db2.WF →
      o2.createExn = none → o2.updateAnalyzingExn = none →
      o2.repair = { okRepairOracle with execResult := Except.error "executor crashed" } →
      ∃ resp, (processIncident db2 req true o2).2 = Except.ok resp) :=
  claim5_executor_raise_swallowed dbPending exIncPending exIncPending
    { okRepairOracle with execResult := Except.error "executor crashed" }
    "executor crashed" (by decide) rfl rfl

/-- C7 counterexample: a Repair Executor timeout is *not* reported as an
executor failure — `execute_repair` converts it into a simulated
successful result, and the repair step then takes the RESOLVED branch,
not the FAILED branch the claim asserts. -/
theorem claim7_counterexample :
    executeRepair clineTimeoutOracle = Except.ok simFallbackResult ∧
    simFallbackResult.success = true ∧
    statusOf (attemptAutoRepair dbPending exIncPending
        { okRepairOracle with execResult := Except.ok simFallbackResult })
      exIncPending.id = some IncidentStatus.resolved := by decide

/-- C7 (amended): a Workflow Trigger timeout is a tolerable failure —
the pipeline continues, returns normally, and reaches exactly the
statuses of the same run whose trigger succeeded — while a Repair
Executor timeout is converted by the executor into a simulated
*successful* result, so the repair step takes the RESOLVED branch; in
neither case does the timeout escape `process_incident`. -/
theorem claim7_timeout_handling (db : Database) (req : IncidentRequest) (o : ProcOracle)
    (x : Option String) (oc : ClineOracle) (hWF : db.WF)
    (h1 : o.createExn = none) (h2 : o.updateAnalyzingExn = none)
    (h3 : o.updatePendingExn = none) (h4 : o.repair.updateRepairingExn = none)
    (h5 : o.repair.saveFinalExn = none) (hoc : oc.run = ClineOutcome.timeout) :
    (∀ (flag : Bool) (j : Nat),
      statusOf (processIncident db req flag
        { o with triggerResult := triggerIncidentFlow KestraOutcome.timeoutError }).1 j
      = statusOf (processIncident db req flag { o with triggerResult := Except.ok x }).1 j) ∧
    (∀ flag : Bool, ∃ resp, (processIncident db req flag
        { o with triggerResult := triggerIncidentFlow KestraOutcome.timeoutError }).2
      = Except.ok resp) ∧
    (∃ rr, executeRepair oc = Except.ok rr ∧ rr.success = true ∧
      ∃ u, getIncident (processIncident db req true
          { o with repair := { o.repair with execResult := Except.ok rr } }).1 db.nextId
        = some u ∧ u.status = IncidentStatus.resolved ∧
      ∃ resp, (processIncident db req true
          { o with repair := { o.repair with execResult := Except.ok rr } }).2
        = Except.ok resp) := by
  refine ⟨?_, ?_, ?_⟩
  · intro flag j
    exact processIncident_sim db req flag
      { o with triggerResult := triggerIncidentFlow KestraOutcome.timeoutError }
      { o with triggerResult := Except.ok x } hWF rfl rfl rfl rfl rfl rfl rfl rfl j
  · intro flag
    exact processIncident_returns_ok db req flag
      { o with triggerResult := triggerIncidentFlow KestraOutcome.timeoutError }
      hWF h1 h2 h3
  · obtain ⟨rr, hok, hsucc⟩ := executeRepair_ok oc
    refine ⟨rr, hok, hsucc, ?_⟩
    obtain ⟨u, resp, hresp, hget, hust, _⟩ :=
      process_exec_char db req
        { o with repair := { o.repair with execResult := Except.ok rr } } rr
        hWF h1 h2 h4 rfl h5
    exact ⟨u, hget, by rw [hust, if_pos hsucc], resp, hresp⟩

theorem claim7_witness :
    ∃ resp, (processIncident emptyDb exReq false
        { okOracle with triggerResult := triggerIncidentFlow KestraOutcome.timeoutError }).2
      = Except.ok resp :=
  (claim7_timeout_handling emptyDb exReq okOracle (some "exec-1") clineTimeoutOracle
    (by decide) rfl rfl rfl rfl rfl rfl).2.1 false

/-- C8: the final statuses of every stored incident after
`process_incident` do not depend on the Analysis Advisor outcome, the
Workflow Trigger outcome, the resolution-suggestion outcome, or the
best-effort saves attached to them: two runs whose oracles agree on
everything else reach identical statuses everywhere. -/
theorem claim8_advisory_failures_status_neutral (db : Database) (req : IncidentRequest)
    (flag : Bool) (o oA : ProcOracle) (hWF : db.WF)
    (h1 : o.createExn = oA.createExn)
    (h2 : o.updateAnalyzingExn = oA.updateAnalyzingExn)
    (h3 : o.updatePendingExn = oA.updatePendingExn)
    (h4 : o.updateFailedExn = oA.updateFailedExn)
    (h5 : o.saveFailedExn = oA.saveFailedExn)
    (h6 : o.repair.updateRepairingExn = oA.repair.updateRepairingExn)
    (h7 : o.repair.execResult = oA.repair.execResult)
    (h8 : o.repair.saveFinalExn = oA.repair.saveFinalExn) :
    ∀ j, statusOf (processIncident db req flag o).1 j
       = statusOf (processIncident db req flag oA).1 j :=
  processIncident_sim db req flag o oA hWF h1 h2 h3 h4 h5 h6 h7 h8

theorem claim8_witness :
    statusOf (processIncident emptyDb exReq true okOracle).1 0
       = statusOf (processIncident emptyDb exReq true
           { okOracle with
               analysisResult := Except.error "gemini down"
               triggerResult := Except.error "kestra down"
               repair := { okRepairOracle with
                 suggestResult := Except.error "gemini down" } }).1 0 :=
  claim8_advisory_failures_status_neutral emptyDb exReq true okOracle
    { okOracle with
        analysisResult := Except.error "gemini down"
        triggerResult := Except.error "kestra down"
        repair := { okRepairOracle with suggestResult := Except.error "gemini down" } }
    (by decide) rfl rfl rfl rfl rfl rfl rfl rfl 0

/-- C9: `list_incidents` returns the stored incidents ordered by
creation time descending (newest first) for every skip/limit, and the
result is a pure function of the stored incidents, so consecutive
calls with the same arguments and no intervening writes return the
same sequence. -/
theorem claim9_list_sorted_and_stable (db : Database) (skip limit : Nat) :
    List.Sorted (fun a b : IncidentResponse => b.created_at ≤ a.created_at)
      (listIncidents db skip limit) ∧
    (∀ db2 : Database, db.incidents = db2.incidents →
      listIncidents db skip limit = listIncidents db2 skip limit) := by
  constructor
  · have hs := List.sorted_insertionSort createdDesc db.incidents
    have hsub : (((List.insertionSort createdDesc db.incidents).drop skip).take
        limit).Sublist (List.insertionSort createdDesc db.incidents) :=
      (List.take_sublist _ _).trans (List.drop_sublist _ _)
    have hp : (((List.insertionSort createdDesc db.incidents).drop skip).take
        limit).Pairwise createdDesc :=
      List.Pairwise.sublist hsub hs
    simp only [listIncidents, List.Sorted]
    rw [List.pairwise_map]
    exact hp.imp (fun h => h)
  · intro db2 h
    simp [listIncidents, h]

theorem claim9_witness :
    List.Sorted (fun a b : IncidentResponse => b.created_at ≤ a.created_at)
      (listIncidents dbPending 0 100) ∧
    (∀ db2 : Database, dbPending.incidents = db2.incidents →
      listIncidents dbPending 0 100 = listIncidents db2 0 100) :=
  claim9_list_sorted_and_stable dbPending 0 100

/-- C10: `ClineRunner.execute_repair` never raises and always returns a
result whose `success` flag is true (every internal error, including a
missing CLI and a timeout, becomes a simulated successful repair);
consequently, when the repair subroutine is driven by this executor,
the executor-reports-failure branch never runs: no transition into
FAILED is ever recorded. -/
theorem claim10_cline_always_succeeds (oc : ClineOracle) (db : Database)
    (inc : IncidentModel) (o : RepairOracle) :
    (∃ rr, executeRepair oc = Except.ok rr ∧ rr.success = true) ∧
    (∀ rr, executeRepair oc = Except.ok rr → o.execResult = Except.ok rr →
      ∀ p ∈ (attemptAutoRepair db inc o).trace,
        p ∈ db.trace ∨ p.2 ≠ IncidentStatus.failed) := by
  refine ⟨executeRepair_ok oc, ?_⟩
  intro rr hok hexec p hp
  have hsucc : rr.success = true := by
    obtain ⟨rr2, h2, h3⟩ := executeRepair_ok oc
    rw [hok] at h2
    injection h2 with hh
    rw [hh]
    exact h3
  rcases AR_trace db inc o p hp with h | h | h
  · exact Or.inl h
  · obtain ⟨s0, _, hps⟩ := h
    right; rw [hps]; simp
  · obtain ⟨rr2, hrr2, hps⟩ := h
    rw [hexec] at hrr2
    injection hrr2 with hh
    subst hh
    right
    rw [hps, if_pos hsucc]
    simp

theorem claim10_witness :
    (∃ rr, executeRepair clineTimeoutOracle = Except.ok rr ∧ rr.success = true) ∧
    (∀ rr, executeRepair clineTimeoutOracle = Except.ok rr →
      ({ okRepairOracle with execResult := Except.ok simFallbackResult } :
        RepairOracle).execResult = Except.ok rr →
      ∀ p ∈ (attemptAutoRepair dbPending exIncPending
          { okRepairOracle with execResult := Except.ok simFallbackResult }).trace,
        p ∈ dbPending.trace ∨ p.2 ≠ IncidentStatus.failed) :=
  claim10_cline_always_succeeds clineTimeoutOracle dbPending exIncPending
    { okRepairOracle with execResult := Except.ok simFallbackResult }
